import Mathlib

/-!
# miflora: reading a BLE plant sensor through `gatttool`

Shallow embedding of `miflora.go`.

* Go `byte` is `Fin 256`; Go `string` and `[]byte` are lists of bytes.
* `uint16` values are natural numbers, `int16` values are integers.
* A finite `float64` is the pair of its signed 53 bit significand and its binary
  exponent; `float64(t) / 10` is the IEEE 754 quotient, rounded to nearest, ties
  to even.
* Running the external `gatttool` process is an oracle `Tool` that maps the
  commands run so far and the new command line to the captured standard output
  and the error of `cmd.Run()`. Every run is appended to a trace.
* A Go function returning `(v, err)` is modelled by `Outcome.ret v err`; a run-time
  panic (index or slice out of range) by `Outcome.panic`.
-/

namespace MifloraPkg

/-- Go `byte`. -/
abbrev Byte := Fin 256

/-- Go `string`: a sequence of bytes. -/
abbrev GoString := List Byte

/-- The bytes of a string literal of the source (ASCII). -/
def str (s : String) : GoString := s.toList.map (fun c => Fin.ofNat c.toNat)

/-- Go `error` values that occur in the program. -/
inductive Error where
  /-- an error returned by `cmd.Run()` -/
  | run (msg : GoString)
  /-- the value `errors.New(msg)` -/
  | new (msg : GoString)
  /-- the value `hex.ErrLength` -/
  | hexLength
  /-- the value `hex.InvalidByteError(b)` -/
  | hexInvalidByte (b : Byte)
  /-- the value `io.EOF` -/
  | eof
  /-- the value `io.ErrUnexpectedEOF` -/
  | unexpectedEOF
  deriving DecidableEq, Repr

/-- Result of a Go call: the returned pair `(v, err)`, or a run-time panic. -/
inductive Outcome (α : Type) where
  | ret (v : α) (err : Option Error)
  | panic
  deriving DecidableEq, Repr

/-! ## Go library functions used by the program -/

/-- The slice expression `s[lo:]`: out of range when `lo > len(s)`. -/
def sliceFrom (s : List Byte) (lo : Nat) : Option (List Byte) :=
  if lo ≤ s.length then some (s.drop lo) else none

/-- The index expression `s[i]`: out of range when `i >= len(s)`. -/
def index (s : List Byte) (i : Nat) : Option Byte := s.get? i

/-- Go `strings.HasPrefix`. -/
def stringsHasPrefix (s pre : GoString) : Bool := pre.isPrefixOf s

/-- Go `strings.Contains`. -/
def stringsContains : GoString → GoString → Bool
  | [], sub => sub.isPrefixOf []
  | c :: s, sub => sub.isPrefixOf (c :: s) || stringsContains s sub

/-- The replacer `strings.NewReplacer(" ", "", "\n", "")`: every space and every
newline is deleted. -/
def replacerReplace (s : GoString) : GoString :=
  s.filter (fun b => !(b == 0x20 || b == 0x0a))

/-- Value of a hexadecimal digit (`encoding/hex`), `none` for any other byte. -/
def fromHexChar (c : Byte) : Option Nat :=
  if 0x30 ≤ c.val ∧ c.val ≤ 0x39 then some (c.val - 0x30)
  else if 0x61 ≤ c.val ∧ c.val ≤ 0x66 then some (c.val - 0x61 + 10)
  else if 0x41 ≤ c.val ∧ c.val ≤ 0x46 then some (c.val - 0x41 + 10)
  else none

/-- Go `hex.DecodeString`: the decoded bytes and the error. -/
def hexDecodeString : GoString → List Byte × Option Error
  | [] => ([], none)
  | [p] =>
    match fromHexChar p with
    | none => ([], some (Error.hexInvalidByte p))
    | some _ => ([], some Error.hexLength)
  | p :: q :: rest =>
    match fromHexChar p with
    | none => ([], some (Error.hexInvalidByte p))
    | some a =>
      match fromHexChar q with
      | none => ([], some (Error.hexInvalidByte q))
      | some b =>
        let r := hexDecodeString rest
        (Fin.ofNat ((a <<< 4) ||| b) :: r.1, r.2)

/-- Go string comparison (`runtime.cmpstring`): bytewise, then by length. -/
def cmpstring : GoString → GoString → Int
  | [], [] => 0
  | [], _ :: _ => -1
  | _ :: _, [] => 1
  | a :: as, b :: bs =>
    if a < b then -1 else if b < a then 1 else cmpstring as bs

/-- The Go expression `a >= b` on strings. -/
def stringGe (a b : GoString) : Bool := decide (0 ≤ cmpstring a b)

/-- A finite Go `float64`: the value `mant * 2 ^ exp`. A nonzero value is kept
normalised, `2 ^ 52 ≤ |mant| < 2 ^ 53`; zero has `mant = 0` and `exp = 0`. -/
structure Float64 where
  mant : Int
  exp : Int
  deriving DecidableEq, Repr

/-- The real number a `float64` stands for. -/
def Float64.toRat (f : Float64) : ℚ := (f.mant : ℚ) * (2 : ℚ) ^ f.exp

/-- Number of halvings that bring `n` below 2, at most `fuel` of them. -/
def log2Fuel : Nat → Nat → Nat
  | 0, _ => 0
  | fuel + 1, n => if n < 2 then 0 else log2Fuel fuel (n / 2) + 1

/-- Position of the leading bit of `n ≥ 1`: the `e` with `2 ^ e ≤ n < 2 ^ (e + 1)`. -/
def floorLog2 (n : Nat) : Nat := log2Fuel n n

/-- Binary exponent of the quotient `a / d`: the `e` with
`2 ^ e ≤ a / d < 2 ^ (e + 1)`, for `a, d ≥ 1`. -/
def floorLog2Ratio (a d : Nat) : Int :=
  let k : Int := (floorLog2 a : Int) - (floorLog2 d : Int)
  if 0 ≤ k then (if d * 2 ^ k.toNat ≤ a then k else k - 1)
  else (if d ≤ a * 2 ^ (-k).toNat then k else k - 1)

/-- The integer nearest to `num / den`, a tie going to the even one. -/
def roundHalfEven (num den : Nat) : Nat :=
  let q := num / den
  let r := num % den
  if den < 2 * r ∨ (den = 2 * r ∧ q % 2 = 1) then q + 1 else q

/-- The Go expression `float64(n) / float64(d)` for integers `n` and `d ≥ 1` that
are exact as `float64`: the IEEE 754 quotient, that is the exact quotient `n / d`
rounded to a 53 bit significand, to nearest, ties to even. The exponent range of
`float64` is not modelled (the quotients of the program lie between 0.1 and
3276.8 in absolute value, or are 0). -/
def float64Quotient (n : Int) (d : Nat) : Float64 :=
  if n = 0 ∨ d = 0 then { mant := 0, exp := 0 }
  else
    let a := n.natAbs
    let s : Int := 52 - floorLog2Ratio a d
    let num : Nat := if 0 ≤ s then a * 2 ^ s.toNat else a
    let den : Nat := if 0 ≤ s then d else d * 2 ^ (-s).toNat
    let q := roundHalfEven num den
    let m : Nat := if q = 2 ^ 53 then 2 ^ 52 else q
    let e : Int := if q = 2 ^ 53 then 1 - s else -s
    { mant := if n < 0 then -(m : Int) else (m : Int), exp := e }

/-- A numeral `n` read as a `float64`: the conversion `float64(n)`. -/
instance (n : Nat) : OfNat Float64 n := ⟨float64Quotient (n : Int) 1⟩

/-- A `bytes.Buffer`: its unread bytes. -/
abbrev Buffer := List Byte

/-- Go `(*bytes.Buffer).Next(n)`: the next `n` bytes (fewer when the buffer is
shorter) and the advanced buffer. -/
def Buffer.Next (p : Buffer) (n : Nat) : List Byte × Buffer := (p.take n, p.drop n)

/-- Go `io.ReadFull(p, buf)` with `len(buf) = n`: on a short buffer everything
left is consumed and an error is returned. -/
def readFull (p : Buffer) (n : Nat) : Except Error (List Byte) × Buffer :=
  if n ≤ p.length then (Except.ok (p.take n), p.drop n)
  else if p.length = 0 then (Except.error Error.eof, [])
  else (Except.error Error.unexpectedEOF, [])

/-- Go `binary.LittleEndian.Uint16(b)`: `uint16(b[0]) | uint16(b[1])<<8`. -/
def littleEndianUint16 (b : List Byte) : Nat :=
  (b.getD 0 0).val ||| ((b.getD 1 0).val <<< 8)

/-- The conversion `int16(u)` of a `uint16`. -/
def toInt16 (u : Nat) : Int :=
  if u % 65536 < 32768 then ((u % 65536 : Nat) : Int) else ((u % 65536 : Nat) : Int) - 65536

/-- Go `binary.Read(p, binary.LittleEndian, &x)` for `x` of type `uint16`: the
variable keeps its value `cur` when the read fails. -/
def binaryReadUint16 (p : Buffer) (cur : Nat) : (Nat × Option Error) × Buffer :=
  match readFull p 2 with
  | (Except.ok bs, p') => ((littleEndianUint16 bs, none), p')
  | (Except.error e, p') => ((cur, some e), p')

/-- Go `binary.Read(p, binary.LittleEndian, &x)` for `x` of type `int16`. -/
def binaryReadInt16 (p : Buffer) (cur : Int) : (Int × Option Error) × Buffer :=
  match readFull p 2 with
  | (Except.ok bs, p') => ((toInt16 (littleEndianUint16 bs), none), p')
  | (Except.error e, p') => ((cur, some e), p')

/-- Go `binary.Read(p, binary.LittleEndian, &x)` for `x` of type `uint8`. -/
def binaryReadUint8 (p : Buffer) (cur : Byte) : (Byte × Option Error) × Buffer :=
  match readFull p 1 with
  | (Except.ok bs, p') => ((bs.getD 0 0, none), p')
  | (Except.error e, p') => ((cur, some e), p')

/-! ## The external tool -/

/-- What one run of the external process gives: the captured standard output and
the error of `cmd.Run()`. -/
structure RunResult where
  stdout : GoString
  err : Option Error
  deriving DecidableEq, Repr

/-- The command lines run so far, oldest first. -/
abbrev Trace := List (List GoString)

/-- The external process: from the runs so far and a command line to its result. -/
abbrev Tool := Trace → List GoString → RunResult

/-- Command line of `gattCharRead`. -/
def readArgv (mac handle adapter : GoString) : List GoString :=
  [str "gatttool", str "-b", mac, str "--char-read", str "-a", handle, str "-i", adapter]

/-- Command line of `gattCharWrite`. -/
def writeArgv (mac handle value adapter : GoString) : List GoString :=
  [str "gatttool", str "-b", mac, str "--char-write-req", str "-a", handle,
    str "-n", value, str "-i", adapter]

/-! ## The program -/

structure Firmware where
  Version : GoString
  Battery : Byte
  deriving DecidableEq, Repr

/-- The zero value `Firmware{}`. -/
def Firmware.zero : Firmware := { Version := [], Battery := 0 }

structure Miflora where
  mac : GoString
  adapter : GoString
  firmware : Firmware
  deriving DecidableEq, Repr

def NewMiflora (mac adapter : GoString) : Miflora :=
  { mac := mac, adapter := adapter, firmware := Firmware.zero }

def gattCharRead (tool : Tool) (trace : Trace) (mac handle adapter : GoString) :
    Outcome (List Byte) × Trace :=
  let argv := readArgv mac handle adapter
  let r := tool trace argv
  let trace1 := trace ++ [argv]
  match r.err with
  | some err => (Outcome.ret [] (some err), trace1)
  | none =>
    let s := r.stdout
    if !stringsHasPrefix s (str "Characteristic value/descriptor: ") then
      (Outcome.ret [] (some (Error.new (str "Unexpected response"))), trace1)
    else
      match sliceFrom s 33 with
      | none => (Outcome.panic, trace1)
      | some t =>
        let h := hexDecodeString (replacerReplace t)
        match h.2 with
        | some err => (Outcome.ret [] (some err), trace1)
        | none => (Outcome.ret h.1 none, trace1)

def gattCharWrite (tool : Tool) (trace : Trace) (mac handle value adapter : GoString) :
    Option Error × Trace :=
  let argv := writeArgv mac handle value adapter
  let r := tool trace argv
  let trace1 := trace ++ [argv]
  match r.err with
  | some err => (some err, trace1)
  | none =>
    if !stringsContains r.stdout (str "successfully") then
      (some (Error.new (str "Unexpected response")), trace1)
    else (none, trace1)

def ReadFirmware (tool : Tool) (m : Miflora) (trace : Trace) :
    Outcome Firmware × Miflora × Trace :=
  match gattCharRead tool trace m.mac (str "0x38") m.adapter with
  | (Outcome.panic, trace1) => (Outcome.panic, m, trace1)
  | (Outcome.ret _ (some err), trace1) => (Outcome.ret Firmware.zero (some err), m, trace1)
  | (Outcome.ret data none, trace1) =>
    match sliceFrom data 2 with
    | none => (Outcome.panic, m, trace1)
    | some v =>
      match index data 0 with
      | none => (Outcome.panic, m, trace1)
      | some b =>
        let f : Firmware := { Version := v, Battery := b }
        (Outcome.ret f none, { m with firmware := f }, trace1)

structure Sensors where
  Temperature : Float64
  Moisture : Byte
  Light : Nat
  Conductivity : Nat
  deriving DecidableEq, Repr

/-- The zero value `Sensors{}`. -/
def Sensors.zero : Sensors :=
  { Temperature := 0, Moisture := 0, Light := 0, Conductivity := 0 }

def enableRealtimeDataReading (tool : Tool) (m : Miflora) (trace : Trace) :
    Option Error × Trace :=
  gattCharWrite tool trace m.mac (str "0x33") (str "A01F") m.adapter

def decodeSensors (data : List Byte) : Sensors :=
  let p : Buffer := data
  -- TT TT ?? LL LL ?? ?? MM CC CC
  let rt := binaryReadInt16 p 0
  let p := (Buffer.Next rt.2 1).2
  let rl := binaryReadUint16 p 0
  let p := (Buffer.Next rl.2 2).2
  let rm := binaryReadUint8 p 0
  let rc := binaryReadUint16 rm.2 0
  { Temperature := float64Quotient rt.1.1 10
    Moisture := rm.1.1
    Light := rl.1.1
    Conductivity := rc.1.1 }

def ReadSensors (tool : Tool) (m : Miflora) (trace : Trace) :
    Outcome Sensors × Miflora × Trace :=
  let gate : Option Error × Trace :=
    if stringGe m.firmware.Version (str "2.6.6") then
      -- newer firmwares explicitly need realtime reading enabling
      enableRealtimeDataReading tool m trace
    else (none, trace)
  match gate with
  | (some err, trace1) => (Outcome.ret Sensors.zero (some err), m, trace1)
  | (none, trace1) =>
    match gattCharRead tool trace1 m.mac (str "0x35") m.adapter with
    | (Outcome.panic, trace2) => (Outcome.panic, m, trace2)
    | (Outcome.ret _ (some err), trace2) => (Outcome.ret Sensors.zero (some err), m, trace2)
    | (Outcome.ret data none, trace2) => (Outcome.ret (decodeSensors data) none, m, trace2)

/-! ## Example devices -/

/-- A device with firmware 3.1.8 and battery 90 that acknowledges every write. -/
def exampleTool : Tool := fun _ argv =>
  if argv.getD 3 [] = str "--char-read" then
    if argv.getD 5 [] = str "0x38" then
      { stdout := str "Characteristic value/descriptor: 5a 00 33 2e 31 2e 38 \n", err := none }
    else
      { stdout := str "Characteristic value/descriptor: d2 00 00 64 00 00 00 28 90 01 \n",
        err := none }
  else { stdout := str "Characteristic value was written successfully\n", err := none }

/-- A device that acknowledges every write and answers every read with `out`. -/
def ackTool (out : GoString) : Tool := fun _ argv =>
  if argv.getD 3 [] = str "--char-read" then { stdout := out, err := none }
  else { stdout := str "Characteristic value was written successfully\n", err := none }

/-- A tool whose every run prints `out` and exits without error. -/
def constTool (out : GoString) : Tool := fun _ _ => { stdout := out, err := none }

/-- A tool whose every run fails with exit status 1. -/
def failingTool : Tool := fun _ _ => { stdout := [], err := some (Error.run (str "exit status 1")) }

/-- A freshly built device. -/
def exampleDevice : Miflora := NewMiflora (str "C4:7C:8D:6A:5E:15") (str "hci0")

/-- A device whose cached firmware version is `v`. -/
def deviceWithVersion (v : GoString) : Miflora :=
  { mac := str "C4:7C:8D:6A:5E:15", adapter := str "hci0",
    firmware := { Version := v, Battery := 90 } }

/-- The commands run by `ReadSensors` itself: its trace without the earlier runs. -/
def sensorCalls (tool : Tool) (m : Miflora) (trace : Trace) : Trace :=
  (ReadSensors tool m trace).2.2.drop trace.length

/-! ## The console output of the tool -/

/-- The lowercase hexadecimal digit of `n`, for `n < 16`. -/
def hexDigit (n : Nat) : Byte :=
  if n < 10 then Fin.ofNat (0x30 + n) else Fin.ofNat (0x61 + (n - 10))

/-- The two-digit lowercase hex of a byte. -/
def hexByte (b : Byte) : GoString := [hexDigit (b.val / 16), hexDigit (b.val % 16)]

/-- The two-digit hex of each byte, separated by spaces. -/
def hexFields : List Byte → GoString
  | [] => []
  | [b] => hexByte b
  | b :: c :: rest => hexByte b ++ 0x20 :: hexFields (c :: rest)

/-- The line the tool prints for a characteristic read of the bytes `bs`: the
label, the hex of the bytes separated by spaces, and a newline. -/
def charReadOutput (bs : List Byte) : GoString :=
  str "Characteristic value/descriptor: " ++ (hexFields bs ++ [0x0a])

/-! ## Library facts -/

theorem log2Fuel_spec : ∀ (fuel n : Nat), n ≤ fuel → 0 < n →
    2 ^ log2Fuel fuel n ≤ n ∧ n < 2 ^ (log2Fuel fuel n + 1) := by
  intro fuel
  induction fuel with
  | zero =>
    intro n h1 h2
    omega
  | succ f ih =>
    intro n h1 h2
    unfold log2Fuel
    by_cases hn : n < 2
    · rw [if_pos hn]
      simp
      omega
    · rw [if_neg hn]
      have hih := ih (n / 2) (by omega) (by omega)
      obtain ⟨h3, h4⟩ := hih
      rw [Nat.pow_succ, Nat.pow_succ]
      constructor <;> omega

theorem floorLog2_spec (n : Nat) (h : 0 < n) :
    2 ^ floorLog2 n ≤ n ∧ n < 2 ^ (floorLog2 n + 1) :=
  log2Fuel_spec n n (le_refl n) h

theorem floorLog2Ratio_spec (a d : Nat) (ha : 0 < a) (hd : 0 < d) :
    (2 : ℚ) ^ floorLog2Ratio a d ≤ (a : ℚ) / d ∧
      (a : ℚ) / d < (2 : ℚ) ^ (floorLog2Ratio a d + 1) := by
  obtain ⟨ha1, ha2⟩ := floorLog2_spec a ha
  obtain ⟨hd1, hd2⟩ := floorLog2_spec d hd
  have hdq : (0 : ℚ) < d := by exact_mod_cast hd
  have qa1 : (2 : ℚ) ^ (floorLog2 a : ℤ) ≤ a := by
    rw [zpow_natCast]; exact_mod_cast ha1
  have qa2 : (a : ℚ) < (2 : ℚ) ^ ((floorLog2 a : ℤ) + 1) := by
    have : (a : ℚ) < (2 : ℚ) ^ (floorLog2 a + 1) := by exact_mod_cast ha2
    rwa [← zpow_natCast, Nat.cast_add, Nat.cast_one] at this
  have qd1 : (2 : ℚ) ^ (floorLog2 d : ℤ) ≤ d := by
    rw [zpow_natCast]; exact_mod_cast hd1
  have qd2 : (d : ℚ) < (2 : ℚ) ^ ((floorLog2 d : ℤ) + 1) := by
    have : (d : ℚ) < (2 : ℚ) ^ (floorLog2 d + 1) := by exact_mod_cast hd2
    rwa [← zpow_natCast, Nat.cast_add, Nat.cast_one] at this
  have h2 : (0 : ℚ) < 2 := by norm_num
  have h2ne : (2 : ℚ) ≠ 0 := by norm_num
  have hpos : ∀ z : ℤ, (0 : ℚ) < (2 : ℚ) ^ z := fun z => zpow_pos h2 z
  -- bounds in terms of k
  have hup : (a : ℚ) < d * (2 : ℚ) ^ ((floorLog2 a : ℤ) - (floorLog2 d : ℤ) + 1) := by
    have e1 : (2 : ℚ) ^ ((floorLog2 a : ℤ) - (floorLog2 d : ℤ) + 1)
        = (2 : ℚ) ^ ((floorLog2 a : ℤ) + 1) / (2 : ℚ) ^ (floorLog2 d : ℤ) := by
      rw [← zpow_sub₀ h2ne]; congr 1; ring
    rw [e1]
    have : (2 : ℚ) ^ ((floorLog2 a : ℤ) + 1)
        ≤ d * ((2 : ℚ) ^ ((floorLog2 a : ℤ) + 1) / (2 : ℚ) ^ (floorLog2 d : ℤ)) := by
      rw [mul_div_assoc', le_div_iff₀ (hpos _)]
      rw [mul_comm]
      exact mul_le_mul_of_nonneg_right qd1 (le_of_lt (hpos _))
    exact lt_of_lt_of_le qa2 this
  have hlow : d * (2 : ℚ) ^ ((floorLog2 a : ℤ) - (floorLog2 d : ℤ) - 1) < (a : ℚ) := by
    have e1 : (2 : ℚ) ^ ((floorLog2 a : ℤ) - (floorLog2 d : ℤ) - 1)
        = (2 : ℚ) ^ (floorLog2 a : ℤ) / (2 : ℚ) ^ ((floorLog2 d : ℤ) + 1) := by
      rw [← zpow_sub₀ h2ne]; congr 1; ring
    rw [e1]
    have : d * ((2 : ℚ) ^ (floorLog2 a : ℤ) / (2 : ℚ) ^ ((floorLog2 d : ℤ) + 1))
        < (2 : ℚ) ^ (floorLog2 a : ℤ) := by
      rw [mul_div_assoc', div_lt_iff₀ (hpos _)]
      rw [mul_comm]
      exact mul_lt_mul_of_pos_left qd2 (hpos _)
    exact lt_of_lt_of_le this qa1
  -- the test
  have htest : ∀ k : ℤ, k = (floorLog2 a : ℤ) - (floorLog2 d : ℤ) →
      ((if 0 ≤ k then (if d * 2 ^ k.toNat ≤ a then k else k - 1)
        else (if d ≤ a * 2 ^ (-k).toNat then k else k - 1)) = k ∧ (d : ℚ) * (2 : ℚ) ^ k ≤ a) ∨
      ((if 0 ≤ k then (if d * 2 ^ k.toNat ≤ a then k else k - 1)
        else (if d ≤ a * 2 ^ (-k).toNat then k else k - 1)) = k - 1 ∧ (a : ℚ) < d * (2 : ℚ) ^ k) := by
    intro k _
    by_cases hk : 0 ≤ k
    · rw [if_pos hk]
      have hkz : (2 : ℚ) ^ k = ((2 ^ k.toNat : ℕ) : ℚ) := by
        rw [Nat.cast_pow, ← zpow_natCast, Int.toNat_of_nonneg hk]; norm_num
      by_cases ht : d * 2 ^ k.toNat ≤ a
      · left
        rw [if_pos ht]
        refine ⟨rfl, ?_⟩
        rw [hkz]; exact_mod_cast ht
      · right
        rw [if_neg ht]
        refine ⟨rfl, ?_⟩
        rw [hkz]; exact_mod_cast not_le.mp ht
    · rw [if_neg hk]
      have hk' : 0 ≤ -k := by omega
      have hkz : (2 : ℚ) ^ (-k) = ((2 ^ (-k).toNat : ℕ) : ℚ) := by
        rw [Nat.cast_pow, ← zpow_natCast, Int.toNat_of_nonneg hk']; norm_num
      have hinv : (2 : ℚ) ^ (-k) * (2 : ℚ) ^ k = 1 := by
        rw [← zpow_add₀ h2ne]; simp
      by_cases ht : d ≤ a * 2 ^ (-k).toNat
      · left
        rw [if_pos ht]
        refine ⟨rfl, ?_⟩
        have : (d : ℚ) ≤ a * (2 : ℚ) ^ (-k) := by rw [hkz]; exact_mod_cast ht
        calc (d : ℚ) * (2 : ℚ) ^ k ≤ a * (2 : ℚ) ^ (-k) * (2 : ℚ) ^ k :=
              mul_le_mul_of_nonneg_right this (le_of_lt (hpos _))
          _ = a := by rw [mul_assoc, hinv, mul_one]
      · right
        rw [if_neg ht]
        refine ⟨rfl, ?_⟩
        have : (a : ℚ) * (2 : ℚ) ^ (-k) < d := by rw [hkz]; exact_mod_cast not_le.mp ht
        calc (a : ℚ) = a * (2 : ℚ) ^ (-k) * (2 : ℚ) ^ k := by rw [mul_assoc, hinv, mul_one]
          _ < d * (2 : ℚ) ^ k := mul_lt_mul_of_pos_right this (hpos _)
  unfold floorLog2Ratio
  simp only []
  rcases htest _ rfl with ⟨he, hle⟩ | ⟨he, hlt⟩
  · rw [he]
    constructor
    · rw [le_div_iff₀ hdq, mul_comm]; exact hle
    · rw [div_lt_iff₀ hdq, mul_comm]; exact hup
  · rw [he]
    constructor
    · rw [le_div_iff₀ hdq, mul_comm]; exact le_of_lt hlow
    · rw [div_lt_iff₀ hdq, mul_comm]
      have : (floorLog2 a : ℤ) - (floorLog2 d : ℤ) - 1 + 1 = (floorLog2 a : ℤ) - (floorLog2 d : ℤ) := by ring
      rw [this]; exact hlt

theorem roundHalfEven_spec (num den : Nat) (hden : 0 < den) :
    num / den ≤ roundHalfEven num den ∧ roundHalfEven num den ≤ num / den + 1 ∧
      2 * |((roundHalfEven num den : ℕ) : ℚ) - (num : ℚ) / den| ≤ 1 := by
  have hdq : (0 : ℚ) < den := by exact_mod_cast hden
  have hdm := Nat.div_add_mod num den
  have hr := Nat.mod_lt num hden
  have hnum : (num : ℚ) = den * ((num / den : ℕ) : ℚ) + ((num % den : ℕ) : ℚ) := by
    exact_mod_cast hdm.symm
  have hrq : ((num % den : ℕ) : ℚ) < den := by exact_mod_cast hr
  have hr0 : (0 : ℚ) ≤ ((num % den : ℕ) : ℚ) := Nat.cast_nonneg _
  have hfrac : (num : ℚ) / den = ((num / den : ℕ) : ℚ) + ((num % den : ℕ) : ℚ) / den := by
    rw [hnum]; field_simp; ring
  unfold roundHalfEven
  simp only []
  by_cases hup : den < 2 * (num % den) ∨ (den = 2 * (num % den) ∧ num / den % 2 = 1)
  · rw [if_pos hup]
    have h2r : den ≤ 2 * (num % den) := by
      rcases hup with h | h
      · omega
      · omega
    have h2rq : (den : ℚ) ≤ 2 * ((num % den : ℕ) : ℚ) := by exact_mod_cast h2r
    refine ⟨by omega, le_refl _, ?_⟩
    rw [hfrac]
    push_cast
    have hx : ((num % den : ℕ) : ℚ) / den ≤ 1 := by
      rw [div_le_one hdq]; exact le_of_lt hrq
    have hy : (1 : ℚ) / 2 ≤ ((num % den : ℕ) : ℚ) / den := by
      rw [le_div_iff₀ hdq]; linarith
    rw [abs_of_nonneg (by linarith)]
    push_cast at hy ⊢
    linarith
  · rw [if_neg hup]
    have h2r : 2 * (num % den) ≤ den := by
      by_contra hc
      exact hup (Or.inl (by omega))
    have h2rq : 2 * ((num % den : ℕ) : ℚ) ≤ den := by exact_mod_cast h2r
    refine ⟨le_refl _, by omega, ?_⟩
    rw [hfrac]
    have hy : ((num % den : ℕ) : ℚ) / den ≤ 1 / 2 := by
      rw [div_le_iff₀ hdq]; linarith
    have hx : (0 : ℚ) ≤ ((num % den : ℕ) : ℚ) / den := div_nonneg hr0 (le_of_lt hdq)
    rw [abs_of_nonpos (by linarith)]
    linarith

/-- The float64 quotient is a normalised double within half a unit in the last
place of the exact quotient. -/
theorem float64Quotient_nearest (n : Int) (d : Nat) (hn : n ≠ 0) (hd : 0 < d) :
    2 ^ 52 ≤ (float64Quotient n d).mant.natAbs ∧
      (float64Quotient n d).mant.natAbs < 2 ^ 53 ∧
      (n < 0 ↔ (float64Quotient n d).mant < 0) ∧
      2 * |(float64Quotient n d).toRat - (n : ℚ) / d|
        ≤ (2 : ℚ) ^ (float64Quotient n d).exp := by
  have ha : 0 < n.natAbs := Int.natAbs_pos.mpr hn
  have hdq : (0 : ℚ) < d := by exact_mod_cast hd
  have h2 : (0 : ℚ) < 2 := by norm_num
  have h2ne : (2 : ℚ) ≠ 0 := by norm_num
  have hpos : ∀ z : ℤ, (0 : ℚ) < (2 : ℚ) ^ z := fun z => zpow_pos h2 z
  obtain ⟨he1, he2⟩ := floorLog2Ratio_spec n.natAbs d ha hd
  -- the scaled fraction
  obtain ⟨num, den, hnumden, hden, hX⟩ : ∃ num den : Nat,
      ((if 0 ≤ (52 : ℤ) - floorLog2Ratio n.natAbs d
          then n.natAbs * 2 ^ ((52 : ℤ) - floorLog2Ratio n.natAbs d).toNat else n.natAbs) = num ∧
        (if 0 ≤ (52 : ℤ) - floorLog2Ratio n.natAbs d then d
          else d * 2 ^ (-((52 : ℤ) - floorLog2Ratio n.natAbs d)).toNat) = den) ∧
      0 < den ∧
      (num : ℚ) / den = (n.natAbs : ℚ) / d * (2 : ℚ) ^ ((52 : ℤ) - floorLog2Ratio n.natAbs d) := by
    by_cases hs : 0 ≤ (52 : ℤ) - floorLog2Ratio n.natAbs d
    · refine ⟨_, _, ⟨rfl, rfl⟩, ?_, ?_⟩
      · rw [if_pos hs]; exact hd
      · rw [if_pos hs, if_pos hs]
        have hkz : (2 : ℚ) ^ ((52 : ℤ) - floorLog2Ratio n.natAbs d)
            = (2 : ℚ) ^ ((52 : ℤ) - floorLog2Ratio n.natAbs d).toNat := by
          rw [← zpow_natCast, Int.toNat_of_nonneg hs]
        rw [hkz]
        push_cast
        ring
    · refine ⟨_, _, ⟨rfl, rfl⟩, ?_, ?_⟩
      · rw [if_neg hs]; positivity
      · rw [if_neg hs, if_neg hs]
        have hs' : 0 ≤ -((52 : ℤ) - floorLog2Ratio n.natAbs d) := by omega
        have hkz : (2 : ℚ) ^ ((52 : ℤ) - floorLog2Ratio n.natAbs d)
            = ((2 : ℚ) ^ (-((52 : ℤ) - floorLog2Ratio n.natAbs d)).toNat)⁻¹ := by
          rw [← zpow_natCast, Int.toNat_of_nonneg hs', zpow_neg, inv_inv]
        rw [hkz]
        push_cast
        field_simp
  have hdenq : (0 : ℚ) < den := by exact_mod_cast hden
  -- bounds of the scaled fraction
  have hXlow : (2 : ℚ) ^ 52 ≤ (num : ℚ) / den := by
    rw [hX]
    have := mul_le_mul_of_nonneg_right he1
      (le_of_lt (hpos ((52 : ℤ) - floorLog2Ratio n.natAbs d)))
    rw [← zpow_add₀ h2ne] at this
    have e : floorLog2Ratio n.natAbs d + (52 - floorLog2Ratio n.natAbs d) = (52 : ℤ) := by ring
    rw [e] at this
    exact_mod_cast this
  have hXup : (num : ℚ) / den < (2 : ℚ) ^ 53 := by
    rw [hX]
    have := mul_lt_mul_of_pos_right he2 (hpos ((52 : ℤ) - floorLog2Ratio n.natAbs d))
    rw [← zpow_add₀ h2ne] at this
    have e : floorLog2Ratio n.natAbs d + 1 + (52 - floorLog2Ratio n.natAbs d) = (53 : ℤ) := by
      ring
    rw [e] at this
    exact_mod_cast this
  have hqlow : 2 ^ 52 ≤ num / den := by
    rw [Nat.le_div_iff_mul_le hden]
    have : (2 : ℚ) ^ 52 * den ≤ num := by rwa [le_div_iff₀ hdenq] at hXlow
    exact_mod_cast this
  have hqup : num / den < 2 ^ 53 := by
    rw [Nat.div_lt_iff_lt_mul hden]
    have : (num : ℚ) < (2 : ℚ) ^ 53 * den := by rwa [div_lt_iff₀ hdenq] at hXup
    exact_mod_cast this
  obtain ⟨hr1, hr2, hr3⟩ := roundHalfEven_spec num den hden
  have hP : (0 : ℚ) < (2 : ℚ) ^ (-((52 : ℤ) - floorLog2Ratio n.natAbs d)) := hpos _
  have hAd : (n.natAbs : ℚ) / d
      = (num : ℚ) / den * (2 : ℚ) ^ (-((52 : ℤ) - floorLog2Ratio n.natAbs d)) := by
    rw [hX, mul_assoc, ← zpow_add₀ h2ne]
    simp
  have hP2 : (2 : ℚ) ^ ((1 : ℤ) - ((52 : ℤ) - floorLog2Ratio n.natAbs d))
      = 2 * (2 : ℚ) ^ (-((52 : ℤ) - floorLog2Ratio n.natAbs d)) := by
    rw [sub_eq_add_neg, zpow_add₀ h2ne]
    simp
  -- the returned value
  have hval : float64Quotient n d =
      { mant := if n < 0
          then -((if roundHalfEven num den = 2 ^ 53 then 2 ^ 52
            else roundHalfEven num den : ℕ) : ℤ)
          else ((if roundHalfEven num den = 2 ^ 53 then 2 ^ 52
            else roundHalfEven num den : ℕ) : ℤ)
        exp := if roundHalfEven num den = 2 ^ 53
          then 1 - ((52 : ℤ) - floorLog2Ratio n.natAbs d)
          else -((52 : ℤ) - floorLog2Ratio n.natAbs d) } := by
    unfold float64Quotient
    rw [if_neg (not_or.mpr ⟨hn, Nat.pos_iff_ne_zero.mp hd⟩)]
    simp only []
    rw [hnumden.1, hnumden.2]
  rw [hval]
  generalize hq : roundHalfEven num den = q at hr1 hr2 hr3
  generalize hPe : (2 : ℚ) ^ (-((52 : ℤ) - floorLog2Ratio n.natAbs d)) = P at hP hAd hP2
  generalize hXe : (num : ℚ) / den = X at hAd hr3 hXlow hXup
  obtain ⟨M, ex, hMdef, hexdef, hm1, hm2, hmval, hPle⟩ : ∃ (M : ℕ) (ex : ℤ),
      (if q = 2 ^ 53 then 2 ^ 52 else q) = M ∧
      (if q = 2 ^ 53 then (1 : ℤ) - ((52 : ℤ) - floorLog2Ratio n.natAbs d)
        else -((52 : ℤ) - floorLog2Ratio n.natAbs d)) = ex ∧
      2 ^ 52 ≤ M ∧ M < 2 ^ 53 ∧ (M : ℚ) * (2 : ℚ) ^ ex = (q : ℚ) * P ∧ P ≤ (2 : ℚ) ^ ex := by
    by_cases h : q = 2 ^ 53
    · refine ⟨_, _, rfl, rfl, ?_, ?_, ?_, ?_⟩
      · rw [if_pos h]
      · rw [if_pos h]; norm_num
      · rw [if_pos h, if_pos h, hP2, h]
        push_cast
        ring
      · rw [if_pos h, hP2]; linarith
    · refine ⟨_, _, rfl, rfl, ?_, ?_, ?_, ?_⟩
      · rw [if_neg h]; omega
      · rw [if_neg h]; omega
      · rw [if_neg h, if_neg h, hPe]
      · rw [if_neg h, hPe]
  rw [hMdef, hexdef]
  have herr : 2 * |(q : ℚ) * P - X * P| ≤ P := by
    rw [← sub_mul, abs_mul, abs_of_pos hP]
    nlinarith [abs_nonneg ((q : ℚ) - X)]
  have hMpos : (0 : ℤ) < (M : ℤ) := by
    have : 0 < M := lt_of_lt_of_le (by norm_num) hm1
    exact_mod_cast this
  refine ⟨?_, ?_, ?_, ?_⟩
  · by_cases hneg : n < 0
    · simp only [if_pos hneg, Int.natAbs_neg, Int.natAbs_ofNat]; exact hm1
    · simp only [if_neg hneg, Int.natAbs_ofNat]; exact hm1
  · by_cases hneg : n < 0
    · simp only [if_pos hneg, Int.natAbs_neg, Int.natAbs_ofNat]; exact hm2
    · simp only [if_neg hneg, Int.natAbs_ofNat]; exact hm2
  · by_cases hneg : n < 0
    · simp only [if_pos hneg]
      exact ⟨fun _ => by omega, fun _ => hneg⟩
    · simp only [if_neg hneg]
      exact ⟨fun h => absurd h hneg, fun h => by omega⟩
  · unfold Float64.toRat
    simp only []
    by_cases hneg : n < 0
    · have hz : ((n.natAbs : ℤ)) = -n := by omega
      have hnq : (n : ℚ) = -(n.natAbs : ℚ) := by
        rw [← Int.cast_natCast, hz]
        push_cast
        ring
      simp only [if_pos hneg]
      rw [hnq, neg_div, hAd, Int.cast_neg, Int.cast_natCast, neg_mul, hmval]
      have e : -((q : ℚ) * P) - -(X * P) = -((q : ℚ) * P - X * P) := by ring
      rw [e, abs_neg]
      linarith
    · have hz : ((n.natAbs : ℤ)) = n := by omega
      have hnq : (n : ℚ) = (n.natAbs : ℚ) := by
        rw [← Int.cast_natCast, hz]
      simp only [if_neg hneg]
      rw [hnq, hAd, Int.cast_natCast, hmval]
      linarith

theorem littleEndianUint16_pair (a b : Byte) (rest : List Byte) :
    littleEndianUint16 (a :: b :: rest) = a.val + 256 * b.val := by
  have ha : a.val < 2 ^ 8 := a.isLt
  have h := Nat.mul_add_lt_is_or ha b.val
  simp only [littleEndianUint16, List.getD_cons_zero, List.getD_cons_succ, Nat.shiftLeft_eq]
  rw [Nat.or_comm, Nat.mul_comm b.val (2 ^ 8), ← h]
  omega

theorem toInt16_pair (a b : Byte) :
    toInt16 (a.val + 256 * b.val) =
      if b.val < 128 then (a.val : Int) + 256 * (b.val : Int)
      else (a.val : Int) + 256 * (b.val : Int) - 65536 := by
  have ha := a.isLt
  have hb := b.isLt
  unfold toInt16
  have hm : (a.val + 256 * b.val) % 65536 = a.val + 256 * b.val := Nat.mod_eq_of_lt (by omega)
  rw [hm]
  by_cases h : b.val < 128
  · rw [if_pos h, if_pos (by omega)]
    push_cast
    ring
  · rw [if_neg h, if_neg (by omega)]
    push_cast
    ring

/-- The decoding of a full ten byte response, field by field. -/
theorem decodeSensors_ten (b0 b1 b2 b3 b4 b5 b6 b7 b8 b9 : Byte) :
    decodeSensors [b0, b1, b2, b3, b4, b5, b6, b7, b8, b9] =
      { Temperature := float64Quotient (toInt16 (b0.val + 256 * b1.val)) 10
        Moisture := b7
        Light := b3.val + 256 * b4.val
        Conductivity := b8.val + 256 * b9.val } := by
  simp [decodeSensors, binaryReadInt16, binaryReadUint16, binaryReadUint8, readFull,
    Buffer.Next, littleEndianUint16_pair]

theorem length_ten_cases (d : List Byte) (h : d.length = 10) :
    ∃ b0 b1 b2 b3 b4 b5 b6 b7 b8 b9, d = [b0, b1, b2, b3, b4, b5, b6, b7, b8, b9] := by
  match d, h with
  | [b0, b1, b2, b3, b4, b5, b6, b7, b8, b9], _ =>
    exact ⟨b0, b1, b2, b3, b4, b5, b6, b7, b8, b9, rfl⟩

/-- Go string comparison `a >= b` is the negation of the lexicographic order. -/
theorem stringGe_iff (a b : GoString) :
    stringGe a b = true ↔ ¬ List.Lex (· < ·) a b := by
  unfold stringGe
  rw [decide_eq_true_iff]
  induction a generalizing b with
  | nil =>
    cases b with
    | nil => simp [cmpstring]
    | cons y ys => simp [cmpstring, List.Lex.nil]
  | cons x xs ih =>
    cases b with
    | nil => simp [cmpstring]
    | cons y ys =>
      unfold cmpstring
      by_cases hxy : x < y
      · rw [if_pos hxy]
        constructor
        · intro h
          omega
        · intro h
          exact absurd (List.Lex.rel hxy) h
      · rw [if_neg hxy]
        by_cases hyx : y < x
        · rw [if_pos hyx]
          constructor
          · intro _ h
            cases h with
            | cons h1 => exact lt_irrefl _ hyx
            | rel h1 => exact hxy h1
          · intro _
            omega
        · rw [if_neg hyx]
          have hxe : x = y := le_antisymm (not_lt.mp hyx) (not_lt.mp hxy)
          subst hxe
          rw [ih ys]
          constructor
          · intro h1 h2
            cases h2 with
            | cons h3 => exact h1 h3
            | rel h3 => exact hxy h3
          · intro h1 h2
            exact h1 (List.Lex.cons h2)

theorem gattCharRead_trace (tool : Tool) (trace : Trace) (mac handle adapter : GoString) :
    (gattCharRead tool trace mac handle adapter).2 = trace ++ [readArgv mac handle adapter] := by
  unfold gattCharRead
  simp only []
  split
  · rfl
  · split
    · rfl
    · split
      · rfl
      · split <;> rfl

theorem gattCharWrite_trace (tool : Tool) (trace : Trace)
    (mac handle value adapter : GoString) :
    (gattCharWrite tool trace mac handle value adapter).2
      = trace ++ [writeArgv mac handle value adapter] := by
  unfold gattCharWrite
  simp only []
  split
  · rfl
  · split <;> rfl

/-- `ReadFirmware` after a read of handle 0x38 that returned the bytes `d`. -/
theorem ReadFirmware_of_read (tool : Tool) (m : Miflora) (trace : Trace) (d : List Byte)
    (hr : (gattCharRead tool trace m.mac (str "0x38") m.adapter).1 = Outcome.ret d none) :
    ReadFirmware tool m trace =
      match sliceFrom d 2 with
      | none => (Outcome.panic, m, trace ++ [readArgv m.mac (str "0x38") m.adapter])
      | some v =>
        match index d 0 with
        | none => (Outcome.panic, m, trace ++ [readArgv m.mac (str "0x38") m.adapter])
        | some b =>
          (Outcome.ret { Version := v, Battery := b } none,
            { m with firmware := { Version := v, Battery := b } },
            trace ++ [readArgv m.mac (str "0x38") m.adapter]) := by
  have ht := gattCharRead_trace tool trace m.mac (str "0x38") m.adapter
  cases hg : gattCharRead tool trace m.mac (str "0x38") m.adapter with
  | mk o t =>
    rw [hg] at hr ht
    simp only at hr ht
    subst hr ht
    simp only [ReadFirmware, hg]

/-- `ReadSensors` when the firmware gate is open. -/
theorem ReadSensors_gate_open (tool : Tool) (m : Miflora) (trace : Trace)
    (hv : stringGe m.firmware.Version (str "2.6.6") = true) :
    ReadSensors tool m trace =
      match gattCharWrite tool trace m.mac (str "0x33") (str "A01F") m.adapter with
      | (some err, trace1) => (Outcome.ret Sensors.zero (some err), m, trace1)
      | (none, trace1) =>
        match gattCharRead tool trace1 m.mac (str "0x35") m.adapter with
        | (Outcome.panic, trace2) => (Outcome.panic, m, trace2)
        | (Outcome.ret _ (some err), trace2) =>
          (Outcome.ret Sensors.zero (some err), m, trace2)
        | (Outcome.ret data none, trace2) =>
          (Outcome.ret (decodeSensors data) none, m, trace2) := by
  simp only [ReadSensors, hv, if_true, enableRealtimeDataReading]

/-- `ReadSensors` when the firmware gate is closed. -/
theorem ReadSensors_gate_closed (tool : Tool) (m : Miflora) (trace : Trace)
    (hv : stringGe m.firmware.Version (str "2.6.6") = false) :
    ReadSensors tool m trace =
      match gattCharRead tool trace m.mac (str "0x35") m.adapter with
      | (Outcome.panic, trace2) => (Outcome.panic, m, trace2)
      | (Outcome.ret _ (some err), trace2) =>
        (Outcome.ret Sensors.zero (some err), m, trace2)
      | (Outcome.ret data none, trace2) =>
        (Outcome.ret (decodeSensors data) none, m, trace2) := by
  simp only [ReadSensors, hv]
  rfl

/-- The trace after the final read of `ReadSensors`. -/
theorem sensorRead_trace (tool : Tool) (m : Miflora) (trace1 : Trace) :
    (match gattCharRead tool trace1 m.mac (str "0x35") m.adapter with
      | (Outcome.panic, trace2) => ((Outcome.panic, m, trace2) : Outcome Sensors × Miflora × Trace)
      | (Outcome.ret _ (some err), trace2) =>
        (Outcome.ret Sensors.zero (some err), m, trace2)
      | (Outcome.ret data none, trace2) =>
        (Outcome.ret (decodeSensors data) none, m, trace2)).2.2
      = trace1 ++ [readArgv m.mac (str "0x35") m.adapter] := by
  have ht := gattCharRead_trace tool trace1 m.mac (str "0x35") m.adapter
  cases hg : gattCharRead tool trace1 m.mac (str "0x35") m.adapter with
  | mk o t =>
    rw [hg] at ht
    simp only at ht
    subst ht
    cases o with
    | panic => rfl
    | ret v e =>
      cases e <;> rfl

theorem ReadFirmware_trace (tool : Tool) (m : Miflora) (trace : Trace) :
    (ReadFirmware tool m trace).2.2 = trace ++ [readArgv m.mac (str "0x38") m.adapter] := by
  have ht := gattCharRead_trace tool trace m.mac (str "0x38") m.adapter
  unfold ReadFirmware
  cases hg : gattCharRead tool trace m.mac (str "0x38") m.adapter with
  | mk o t =>
    rw [hg] at ht
    simp only at ht
    subst ht
    cases o with
    | panic => rfl
    | ret v e =>
      cases e with
      | some e1 => rfl
      | none =>
        simp only []
        split
        · rfl
        · split <;> rfl

/-- The result of `ReadSensors` once the gate is passed and the read of handle
0x35 returned the bytes `d`. -/
theorem sensorRead_value (tool : Tool) (m : Miflora) (trace1 : Trace) (d : List Byte)
    (hr : (gattCharRead tool trace1 m.mac (str "0x35") m.adapter).1 = Outcome.ret d none) :
    (match gattCharRead tool trace1 m.mac (str "0x35") m.adapter with
      | (Outcome.panic, trace2) => ((Outcome.panic, m, trace2) : Outcome Sensors × Miflora × Trace)
      | (Outcome.ret _ (some err), trace2) =>
        (Outcome.ret Sensors.zero (some err), m, trace2)
      | (Outcome.ret data none, trace2) =>
        (Outcome.ret (decodeSensors data) none, m, trace2)).1
      = Outcome.ret (decodeSensors d) none := by
  cases hg : gattCharRead tool trace1 m.mac (str "0x35") m.adapter with
  | mk o t =>
    rw [hg] at hr
    simp only at hr
    subst hr
    rfl

theorem decodeSensors_short_conductivity (d : List Byte) (h : d.length < 10) :
    (decodeSensors d).Conductivity = 0 := by
  match d, h with
  | [], _ => rfl
  | [_], _ => rfl
  | [_, _], _ => rfl
  | [_, _, _], _ => rfl
  | [_, _, _, _], _ => rfl
  | [_, _, _, _, _], _ => rfl
  | [_, _, _, _, _, _], _ => rfl
  | [_, _, _, _, _, _, _], _ => rfl
  | [_, _, _, _, _, _, _, _], _ => rfl
  | [_, _, _, _, _, _, _, _, _], _ => rfl
  | _ :: _ :: _ :: _ :: _ :: _ :: _ :: _ :: _ :: _ :: _, h =>
    simp at h
    omega

theorem readArgv_ne_writeArgv (mac handle adapter mac2 handle2 value adapter2 : GoString) :
    readArgv mac handle adapter ≠ writeArgv mac2 handle2 value adapter2 := by
  intro h
  have hl := congrArg List.length h
  simp [readArgv, writeArgv] at hl

theorem sensorCalls_gate_closed (tool : Tool) (m : Miflora) (trace : Trace)
    (hv : stringGe m.firmware.Version (str "2.6.6") = false) :
    sensorCalls tool m trace = [readArgv m.mac (str "0x35") m.adapter] := by
  unfold sensorCalls
  rw [ReadSensors_gate_closed tool m trace hv, sensorRead_trace]
  simp

theorem sensorCalls_gate_open (tool : Tool) (m : Miflora) (trace : Trace)
    (hv : stringGe m.firmware.Version (str "2.6.6") = true) :
    sensorCalls tool m trace
        = [writeArgv m.mac (str "0x33") (str "A01F") m.adapter,
            readArgv m.mac (str "0x35") m.adapter] ∨
      sensorCalls tool m trace = [writeArgv m.mac (str "0x33") (str "A01F") m.adapter] := by
  unfold sensorCalls
  rw [ReadSensors_gate_open tool m trace hv]
  have ht := gattCharWrite_trace tool trace m.mac (str "0x33") (str "A01F") m.adapter
  cases hg : gattCharWrite tool trace m.mac (str "0x33") (str "A01F") m.adapter with
  | mk e t =>
    rw [hg] at ht
    simp only at ht
    subst ht
    cases e with
    | some e1 =>
      right
      simp
    | none =>
      left
      simp only []
      rw [sensorRead_trace]
      simp

/-- The device and the trace after a `ReadFirmware` whose read returned at
least two bytes. -/
theorem ReadFirmware_of_read_cons (tool : Tool) (m : Miflora) (trace : Trace)
    (a b : Byte) (rest : List Byte)
    (hr : (gattCharRead tool trace m.mac (str "0x38") m.adapter).1
      = Outcome.ret (a :: b :: rest) none) :
    ReadFirmware tool m trace =
      (Outcome.ret { Version := rest, Battery := a } none,
        { m with firmware := { Version := rest, Battery := a } },
        trace ++ [readArgv m.mac (str "0x38") m.adapter]) := by
  rw [ReadFirmware_of_read tool m trace _ hr]
  simp [sliceFrom, index]

/-- The result of `ReadSensors` once the gate is passed and the read of handle
0x35 failed with the error `e`. -/
theorem sensorRead_error (tool : Tool) (m : Miflora) (trace1 : Trace) (d : List Byte)
    (e : Error)
    (hr : (gattCharRead tool trace1 m.mac (str "0x35") m.adapter).1
      = Outcome.ret d (some e)) :
    (match gattCharRead tool trace1 m.mac (str "0x35") m.adapter with
      | (Outcome.panic, trace2) => ((Outcome.panic, m, trace2) : Outcome Sensors × Miflora × Trace)
      | (Outcome.ret _ (some err), trace2) =>
        (Outcome.ret Sensors.zero (some err), m, trace2)
      | (Outcome.ret data none, trace2) =>
        (Outcome.ret (decodeSensors data) none, m, trace2)).1
      = Outcome.ret Sensors.zero (some e) := by
  cases hg : gattCharRead tool trace1 m.mac (str "0x35") m.adapter with
  | mk o t =>
    rw [hg] at hr
    simp only at hr
    subst hr
    rfl

/-- The device after the final read of `ReadSensors`. -/
theorem sensorRead_device (tool : Tool) (m : Miflora) (trace1 : Trace) :
    (match gattCharRead tool trace1 m.mac (str "0x35") m.adapter with
      | (Outcome.panic, trace2) => ((Outcome.panic, m, trace2) : Outcome Sensors × Miflora × Trace)
      | (Outcome.ret _ (some err), trace2) =>
        (Outcome.ret Sensors.zero (some err), m, trace2)
      | (Outcome.ret data none, trace2) =>
        (Outcome.ret (decodeSensors data) none, m, trace2)).2.1 = m := by
  cases hg : gattCharRead tool trace1 m.mac (str "0x35") m.adapter with
  | mk o t =>
    cases o with
    | panic => rfl
    | ret v e =>
      cases e <;> rfl

theorem stringGe_false_of_lex (a b : GoString) (h : List.Lex (· < ·) a b) :
    stringGe a b = false := by
  cases hs : stringGe a b with
  | false => rfl
  | true => exact absurd h ((stringGe_iff _ _).1 hs)

theorem lex_of_stringGe_false (a b : GoString) (h : stringGe a b = false) :
    List.Lex (· < ·) a b := by
  by_contra hn
  rw [(stringGe_iff _ _).2 hn] at h
  exact Bool.noConfusion h

/-- `ReadFirmware` after a read of handle 0x38 that failed with the error `e`. -/
theorem ReadFirmware_of_read_error (tool : Tool) (m : Miflora) (trace : Trace)
    (d : List Byte) (e : Error)
    (hr : (gattCharRead tool trace m.mac (str "0x38") m.adapter).1
      = Outcome.ret d (some e)) :
    ReadFirmware tool m trace =
      (Outcome.ret Firmware.zero (some e), m,
        trace ++ [readArgv m.mac (str "0x38") m.adapter]) := by
  have ht := gattCharRead_trace tool trace m.mac (str "0x38") m.adapter
  cases hg : gattCharRead tool trace m.mac (str "0x38") m.adapter with
  | mk o t =>
    rw [hg] at hr ht
    simp only at hr ht
    subst hr ht
    simp only [ReadFirmware, hg]

theorem fromHexChar_hexDigit : ∀ n, n < 16 → fromHexChar (hexDigit n) = some n := by
  decide

theorem hexDigit_kept : ∀ n, n < 16 →
    (!(hexDigit n == (0x20 : Byte) || hexDigit n == (0x0a : Byte))) = true := by
  decide

theorem nibbles_join (b : Byte) :
    (Fin.ofNat (((b.val / 16) <<< 4) ||| (b.val % 16)) : Byte) = b := by
  have h16 : b.val % 16 < 2 ^ 4 := Nat.mod_lt _ (by norm_num)
  have hor := Nat.mul_add_lt_is_or h16 (b.val / 16)
  have hsh : (b.val / 16) <<< 4 = 2 ^ 4 * (b.val / 16) := by
    rw [Nat.shiftLeft_eq, Nat.mul_comm]
  rw [hsh, ← hor]
  have hb : 2 ^ 4 * (b.val / 16) + b.val % 16 = b.val := by
    have := Nat.div_add_mod b.val 16
    omega
  rw [hb]
  apply Fin.ext
  simp [Fin.ofNat, Nat.mod_eq_of_lt b.isLt]

theorem replacerReplace_append (s t : GoString) :
    replacerReplace (s ++ t) = replacerReplace s ++ replacerReplace t := by
  simp [replacerReplace, List.filter_append]

theorem replacerReplace_hexByte (b : Byte) : replacerReplace (hexByte b) = hexByte b := by
  have h1 := hexDigit_kept (b.val / 16) (by have := b.isLt; omega)
  have h2 := hexDigit_kept (b.val % 16) (Nat.mod_lt _ (by norm_num))
  simp only [replacerReplace, hexByte, List.filter_cons, h1, h2, if_true, List.filter_nil]

/-- Deleting the separators of the printed bytes leaves their hex digits. -/
theorem replacerReplace_hexFields (bs : List Byte) :
    replacerReplace (hexFields bs) = (bs.map hexByte).flatten := by
  induction bs with
  | nil => rfl
  | cons b rest ih =>
    cases rest with
    | nil => simp [hexFields, replacerReplace_hexByte]
    | cons c rest2 =>
      have hsp : replacerReplace ((0x20 : Byte) :: hexFields (c :: rest2))
          = replacerReplace (hexFields (c :: rest2)) := by
        simp [replacerReplace]
      rw [hexFields, replacerReplace_append, replacerReplace_hexByte, hsp, ih]
      simp

/-- Decoding the hex digits of a byte sequence gives the sequence back. -/
theorem hexDecodeString_hex (bs : List Byte) :
    hexDecodeString ((bs.map hexByte).flatten) = (bs, none) := by
  induction bs with
  | nil => rfl
  | cons b rest ih =>
    have h1 := fromHexChar_hexDigit (b.val / 16) (by have := b.isLt; omega)
    have h2 := fromHexChar_hexDigit (b.val % 16) (Nat.mod_lt _ (by norm_num))
    have hcons : (List.map hexByte (b :: rest)).flatten
        = hexDigit (b.val / 16) :: hexDigit (b.val % 16) :: (List.map hexByte rest).flatten := by
      simp [hexByte]
    rw [hcons, hexDecodeString]
    simp only [h1, h2]
    rw [ih, nibbles_join]

theorem label_length : (str "Characteristic value/descriptor: ").length = 33 := by
  decide

/-- The result of `gattCharRead` when the tool exits without error and prints
the label followed by `t`. -/
theorem gattCharRead_of_label (tool : Tool) (trace : Trace) (mac handle adapter : GoString)
    (t : GoString)
    (hrun : tool trace (readArgv mac handle adapter)
      = { stdout := str "Characteristic value/descriptor: " ++ t, err := none }) :
    (gattCharRead tool trace mac handle adapter).1 =
      match (hexDecodeString (replacerReplace t)).2 with
      | some err => Outcome.ret [] (some err)
      | none => Outcome.ret (hexDecodeString (replacerReplace t)).1 none := by
  have hp : stringsHasPrefix (str "Characteristic value/descriptor: " ++ t)
      (str "Characteristic value/descriptor: ") = true := by
    simp [stringsHasPrefix, List.isPrefixOf_iff_prefix]
  have hs : sliceFrom (str "Characteristic value/descriptor: " ++ t) 33 = some t := by
    unfold sliceFrom
    rw [if_pos (by rw [List.length_append, label_length]; omega),
      List.drop_left' label_length]
  simp only [gattCharRead, hrun, hp, hs, Bool.not_true, Bool.false_eq_true, if_false]
  generalize (hexDecodeString (replacerReplace t)).2 = o
  cases o <;> rfl

/-- Go `strings.Contains` holds exactly when the second string occurs in the first. -/
theorem stringsContains_iff (s sub : GoString) :
    stringsContains s sub = true ↔ sub <:+: s := by
  induction s with
  | nil => simp [stringsContains, List.isPrefixOf_iff_prefix]
  | cons c rest ih =>
    rw [stringsContains, Bool.or_eq_true, ih, List.isPrefixOf_iff_prefix, List.infix_cons_iff]

theorem decodeSensors_temperature_of (b0 b1 : Byte) (rest : List Byte) :
    (decodeSensors (b0 :: b1 :: rest)).Temperature
      = float64Quotient (toInt16 (b0.val + 256 * b1.val)) 10 := by
  simp [decodeSensors, binaryReadInt16, readFull, littleEndianUint16_pair]

theorem decodeSensors_light_of (b0 b1 b2 b3 b4 : Byte) (rest : List Byte) :
    (decodeSensors (b0 :: b1 :: b2 :: b3 :: b4 :: rest)).Light = b3.val + 256 * b4.val := by
  simp [decodeSensors, binaryReadInt16, binaryReadUint16, readFull, Buffer.Next,
    littleEndianUint16_pair]

theorem decodeSensors_moisture_of (b0 b1 b2 b3 b4 b5 b6 b7 : Byte) (rest : List Byte) :
    (decodeSensors (b0 :: b1 :: b2 :: b3 :: b4 :: b5 :: b6 :: b7 :: rest)).Moisture = b7 := by
  simp [decodeSensors, binaryReadInt16, binaryReadUint16, binaryReadUint8, readFull,
    Buffer.Next]

/-- The decoding of a response of ten bytes or more. -/
theorem decodeSensors_ten_append (b0 b1 b2 b3 b4 b5 b6 b7 b8 b9 : Byte) (rest : List Byte) :
    decodeSensors (b0 :: b1 :: b2 :: b3 :: b4 :: b5 :: b6 :: b7 :: b8 :: b9 :: rest) =
      { Temperature := float64Quotient (toInt16 (b0.val + 256 * b1.val)) 10
        Moisture := b7
        Light := b3.val + 256 * b4.val
        Conductivity := b8.val + 256 * b9.val } := by
  simp [decodeSensors, binaryReadInt16, binaryReadUint16, binaryReadUint8, readFull,
    Buffer.Next, littleEndianUint16_pair]

theorem decodeSensors_short_temperature (d : List Byte) (h : d.length < 2) :
    (decodeSensors d).Temperature = 0 := by
  have hz : float64Quotient 0 10 = 0 := by decide
  match d, h with
  | [], _ => simp [decodeSensors, binaryReadInt16, readFull, hz]
  | [_], _ => simp [decodeSensors, binaryReadInt16, readFull, hz]
  | _ :: _ :: _, h =>
    simp only [List.length_cons] at h
    omega

theorem decodeSensors_short_light (d : List Byte) (h : d.length < 5) :
    (decodeSensors d).Light = 0 := by
  match d, h with
  | [], _ => rfl
  | [_], _ => rfl
  | [_, _], _ => rfl
  | [_, _, _], _ => rfl
  | [_, _, _, _], _ => rfl
  | _ :: _ :: _ :: _ :: _ :: _, h =>
    simp only [List.length_cons] at h
    omega

theorem decodeSensors_short_moisture (d : List Byte) (h : d.length < 8) :
    (decodeSensors d).Moisture = 0 := by
  match d, h with
  | [], _ => rfl
  | [_], _ => rfl
  | [_, _], _ => rfl
  | [_, _, _], _ => rfl
  | [_, _, _, _], _ => rfl
  | [_, _, _, _, _], _ => rfl
  | [_, _, _, _, _, _], _ => rfl
  | [_, _, _, _, _, _, _], _ => rfl
  | _ :: _ :: _ :: _ :: _ :: _ :: _ :: _ :: _, h =>
    simp at h
    omega

/-! ## Sensor decoding -/

/-- C1: for every response `d` of exactly 10 bytes, `decodeSensors` gives
`Light = d[3] + 256*d[4]`, `Moisture = d[7]` and `Conductivity = d[8] + 256*d[9]`;
the bytes `D2 00 00 64 00 00 00 28 90 01` give Light 100, Moisture 40 and
Conductivity 400. -/
theorem decodeSensors_layout :
    (∀ (d : List Byte) (h : d.length = 10),
      (decodeSensors d).Light = (d[3]).val + 256 * (d[4]).val ∧
      (decodeSensors d).Moisture = d[7] ∧
      (decodeSensors d).Conductivity = (d[8]).val + 256 * (d[9]).val) ∧
    ((decodeSensors [0xD2, 0x00, 0x00, 0x64, 0x00, 0x00, 0x00, 0x28, 0x90, 0x01]).Light = 100 ∧
      (decodeSensors [0xD2, 0x00, 0x00, 0x64, 0x00, 0x00, 0x00, 0x28, 0x90, 0x01]).Moisture = 40 ∧
      (decodeSensors [0xD2, 0x00, 0x00, 0x64, 0x00, 0x00, 0x00, 0x28, 0x90, 0x01]).Conductivity
        = 400) := by
  refine ⟨?_, ?_⟩
  · intro d h
    obtain ⟨b0, b1, b2, b3, b4, b5, b6, b7, b8, b9, rfl⟩ := length_ten_cases d h
    rw [decodeSensors_ten]
    simp
  · rw [decodeSensors_ten]
    decide

theorem decodeSensors_layout_witness :
    (decodeSensors [0x2E, 0xFF, 0x07, 0x10, 0x27, 0x08, 0x09, 0x63, 0xFF, 0xFF]).Light
        = 0x10 + 256 * 0x27 ∧
      (decodeSensors [0x2E, 0xFF, 0x07, 0x10, 0x27, 0x08, 0x09, 0x63, 0xFF, 0xFF]).Moisture
        = 0x63 ∧
      (decodeSensors [0x2E, 0xFF, 0x07, 0x10, 0x27, 0x08, 0x09, 0x63, 0xFF, 0xFF]).Conductivity
        = 0xFF + 256 * 0xFF :=
  decodeSensors_layout.1 [0x2E, 0xFF, 0x07, 0x10, 0x27, 0x08, 0x09, 0x63, 0xFF, 0xFF] rfl

/-- C2, counterexample: for the 10 bytes `01 00 00 00 00 00 00 00 00 00` the
signed integer of the first two bytes is 1, and the temperature returned is the
`float64` 7205759403792794 * 2^-56, which is not 1/10. -/
theorem decodeSensors_temperature_inexact :
    (decodeSensors [0x01, 0x00, 0x00, 0x00, 0x00, 0x00, 0x00, 0x00, 0x00, 0x00]).Temperature
      = { mant := 7205759403792794, exp := -56 } ∧
    (decodeSensors
        [0x01, 0x00, 0x00, 0x00, 0x00, 0x00, 0x00, 0x00, 0x00, 0x00]).Temperature.toRat
      ≠ (((0x01 : Int) + 256 * 0x00 : Int) : ℚ) / 10 := by
  have h : (decodeSensors
      [0x01, 0x00, 0x00, 0x00, 0x00, 0x00, 0x00, 0x00, 0x00, 0x00]).Temperature
      = { mant := 7205759403792794, exp := -56 } := by decide
  refine ⟨h, ?_⟩
  rw [h]
  simp only [Float64.toRat]
  norm_num

/-- C2, amended: for every response `d` of exactly 10 bytes the temperature is the
`float64` quotient `float64(t) / 10`, where `t` is the signed 16 bit little-endian
integer of `d[0]`, `d[1]`: `d[0] + 256*d[1]` when `d[1] < 128` and
`d[0] + 256*d[1] - 65536` otherwise. This quotient is the double nearest to
`t / 10`: it differs from `t / 10` by at most half a unit of its last place, and
for `t ≠ 0` its significand has exactly 53 bits. A response whose second byte is
128 or more gives a temperature below zero, and a response that starts `D2 00`
gives exactly 21. -/
theorem decodeSensors_temperature :
    (∀ (d : List Byte) (h : d.length = 10),
      (decodeSensors d).Temperature =
        float64Quotient
          (if (d[1]).val < 128 then ((d[0]).val : Int) + 256 * ((d[1]).val : Int)
            else ((d[0]).val : Int) + 256 * ((d[1]).val : Int) - 65536) 10 ∧
      2 * |(decodeSensors d).Temperature.toRat -
          ((if (d[1]).val < 128 then ((d[0]).val : Int) + 256 * ((d[1]).val : Int)
            else ((d[0]).val : Int) + 256 * ((d[1]).val : Int) - 65536 : Int) : ℚ) / 10|
        ≤ (2 : ℚ) ^ (decodeSensors d).Temperature.exp ∧
      ((d[0]).val ≠ 0 ∨ (d[1]).val ≠ 0 →
        2 ^ 52 ≤ (decodeSensors d).Temperature.mant.natAbs ∧
          (decodeSensors d).Temperature.mant.natAbs < 2 ^ 53)) ∧
    (∀ (d : List Byte) (h : d.length = 10), 128 ≤ (d[1]).val →
      (decodeSensors d).Temperature.toRat < 0) ∧
    (∀ b2 b3 b4 b5 b6 b7 b8 b9 : Byte,
      (decodeSensors [0xD2, 0x00, b2, b3, b4, b5, b6, b7, b8, b9]).Temperature = 21 ∧
      (decodeSensors [0xD2, 0x00, b2, b3, b4, b5, b6, b7, b8, b9]).Temperature.toRat
        = 21) := by
  refine ⟨?_, ?_, ?_⟩
  · intro d h
    obtain ⟨b0, b1, b2, b3, b4, b5, b6, b7, b8, b9, rfl⟩ := length_ten_cases d h
    rw [decodeSensors_ten]
    simp only [toInt16_pair, List.getElem_cons_zero, List.getElem_cons_succ]
    have ha := b0.isLt
    have hb := b1.isLt
    generalize ht : (if b1.val < 128 then (b0.val : Int) + 256 * (b1.val : Int)
      else (b0.val : Int) + 256 * (b1.val : Int) - 65536) = t
    refine ⟨rfl, ?_, ?_⟩
    · by_cases h0 : t = 0
      · subst h0
        have hz : float64Quotient 0 10 = { mant := 0, exp := 0 } := by decide
        rw [hz]
        simp [Float64.toRat]
      · rw [Nat.cast_ofNat.symm]
        exact (float64Quotient_nearest t 10 h0 (by norm_num)).2.2.2
    · intro hne
      have h0 : t ≠ 0 := by
        rw [← ht]
        split <;> omega
      have hn := float64Quotient_nearest t 10 h0 (by norm_num)
      exact ⟨hn.1, hn.2.1⟩
  · intro d h
    obtain ⟨b0, b1, b2, b3, b4, b5, b6, b7, b8, b9, rfl⟩ := length_ten_cases d h
    intro h1
    rw [decodeSensors_ten, toInt16_pair]
    have h1' : 128 ≤ b1.val := by simpa using h1
    have ha := b0.isLt
    have hb := b1.isLt
    rw [if_neg (by omega)]
    have hneg : ((b0.val : Int) + 256 * (b1.val : Int) - 65536) < 0 := by omega
    have hn := float64Quotient_nearest ((b0.val : Int) + 256 * (b1.val : Int) - 65536) 10
      (by omega) (by norm_num)
    have hm : (float64Quotient ((b0.val : Int) + 256 * (b1.val : Int) - 65536) 10).mant < 0 :=
      hn.2.2.1.1 hneg
    unfold Float64.toRat
    have hmq : (((float64Quotient ((b0.val : Int) + 256 * (b1.val : Int) - 65536) 10).mant
        : Int) : ℚ) < 0 := by exact_mod_cast hm
    exact mul_neg_of_neg_of_pos hmq (zpow_pos (by norm_num) _)
  · intro b2 b3 b4 b5 b6 b7 b8 b9
    rw [decodeSensors_ten]
    have ht : float64Quotient (toInt16 ((0xD2 : Byte).val + 256 * (0x00 : Byte).val)) 10
        = { mant := 5910974510923776, exp := -48 } := by decide
    have h21 : (21 : Float64) = { mant := 5910974510923776, exp := -48 } := by decide
    constructor
    · rw [ht, h21]
    · rw [ht]
      simp only [Float64.toRat]
      norm_num

theorem decodeSensors_temperature_witness :
    ((decodeSensors [0x2E, 0xFF, 0x07, 0x10, 0x27, 0x08, 0x09, 0x63, 0xFF, 0xFF]).Temperature
        = float64Quotient
            (if ((0xFF : Byte)).val < 128 then (((0x2E : Byte)).val : Int)
                + 256 * (((0xFF : Byte)).val : Int)
              else (((0x2E : Byte)).val : Int) + 256 * (((0xFF : Byte)).val : Int) - 65536)
            10) ∧
    (2 ^ 52 ≤ (decodeSensors
          [0x2E, 0xFF, 0x07, 0x10, 0x27, 0x08, 0x09, 0x63, 0xFF, 0xFF]).Temperature.mant.natAbs ∧
      (decodeSensors
          [0x2E, 0xFF, 0x07, 0x10, 0x27, 0x08, 0x09, 0x63, 0xFF, 0xFF]).Temperature.mant.natAbs
        < 2 ^ 53) ∧
    (decodeSensors [0x2E, 0xFF, 0x07, 0x10, 0x27, 0x08, 0x09, 0x63, 0xFF, 0xFF]).Temperature.toRat
      < 0 :=
  ⟨(decodeSensors_temperature.1 [0x2E, 0xFF, 0x07, 0x10, 0x27, 0x08, 0x09, 0x63, 0xFF, 0xFF]
      rfl).1,
   (decodeSensors_temperature.1 [0x2E, 0xFF, 0x07, 0x10, 0x27, 0x08, 0x09, 0x63, 0xFF, 0xFF]
      rfl).2.2 (by decide),
   decodeSensors_temperature.2.1 [0x2E, 0xFF, 0x07, 0x10, 0x27, 0x08, 0x09, 0x63, 0xFF, 0xFF]
     rfl (by decide)⟩

/-! ## Firmware decoding -/

/-- C3: when the read of handle 0x38 returns at least 3 bytes `d`, `ReadFirmware`
succeeds with `Battery = d[0]` and `Version` the bytes of `d` from offset 2 on;
replacing the byte `d[1]` by any other byte leaves the result unchanged; the bytes
`5A 00 '3' '.' '1' '.' '8'` give Battery 90 and Version "3.1.8". -/
theorem ReadFirmware_decodes :
    (∀ (tool : Tool) (m : Miflora) (trace : Trace) (d : List Byte) (h : 3 ≤ d.length),
      (gattCharRead tool trace m.mac (str "0x38") m.adapter).1 = Outcome.ret d none →
      (ReadFirmware tool m trace).1
        = Outcome.ret { Version := d.drop 2, Battery := d[0] } none) ∧
    (∀ (tool tool2 : Tool) (m : Miflora) (trace : Trace) (d : List Byte) (x : Byte),
      3 ≤ d.length →
      (gattCharRead tool trace m.mac (str "0x38") m.adapter).1 = Outcome.ret d none →
      (gattCharRead tool2 trace m.mac (str "0x38") m.adapter).1
        = Outcome.ret (d.set 1 x) none →
      (ReadFirmware tool2 m trace).1 = (ReadFirmware tool m trace).1) ∧
    (∀ (tool : Tool) (m : Miflora) (trace : Trace),
      (gattCharRead tool trace m.mac (str "0x38") m.adapter).1
        = Outcome.ret [0x5A, 0x00, 0x33, 0x2E, 0x31, 0x2E, 0x38] none →
      (ReadFirmware tool m trace).1
        = Outcome.ret { Version := str "3.1.8", Battery := 90 } none) := by
  refine ⟨?_, ?_, ?_⟩
  · intro tool m trace d h hr
    rw [ReadFirmware_of_read tool m trace d hr]
    match d, h with
    | a :: b :: c :: rest, _ => simp [sliceFrom, index]
  · intro tool tool2 m trace d x h hr hr2
    rw [ReadFirmware_of_read tool m trace d hr, ReadFirmware_of_read tool2 m trace _ hr2]
    match d, h with
    | a :: b :: c :: rest, _ => simp [sliceFrom, index]
  · intro tool m trace hr
    rw [ReadFirmware_of_read tool m trace _ hr]
    have hs : sliceFrom [0x5A, 0x00, 0x33, 0x2E, 0x31, 0x2E, 0x38] 2 = some (str "3.1.8") := by
      decide
    have hi : index [0x5A, 0x00, 0x33, 0x2E, 0x31, 0x2E, 0x38] 0 = some 90 := by decide
    simp only [hs, hi]

theorem ReadFirmware_decodes_witness :
    (ReadFirmware exampleTool exampleDevice []).1
        = Outcome.ret { Version := [0x33, 0x2E, 0x31, 0x2E, 0x38], Battery := 0x5A } none ∧
      (ReadFirmware
          (constTool (str "Characteristic value/descriptor: 5a ff 33 2e 31 2e 38 \n"))
          exampleDevice []).1
        = (ReadFirmware exampleTool exampleDevice []).1 ∧
      (ReadFirmware exampleTool exampleDevice []).1
        = Outcome.ret { Version := str "3.1.8", Battery := 90 } none :=
  ⟨ReadFirmware_decodes.1 exampleTool exampleDevice []
      [0x5A, 0x00, 0x33, 0x2E, 0x31, 0x2E, 0x38] (by decide) (by decide),
    ReadFirmware_decodes.2.1 exampleTool
      (constTool (str "Characteristic value/descriptor: 5a ff 33 2e 31 2e 38 \n"))
      exampleDevice [] [0x5A, 0x00, 0x33, 0x2E, 0x31, 0x2E, 0x38] 0xFF (by decide)
      (by decide) (by decide),
    ReadFirmware_decodes.2.2 exampleTool exampleDevice [] (by decide)⟩

/-! ## The firmware gate of `ReadSensors` -/

/-- C4: when the cached version is lexicographically at least "2.6.6" and the
write succeeds, `ReadSensors` runs exactly two commands, in this order: the write
of `A01F` to handle 0x33, then the read of handle 0x35, both with the address and
the adapter of the device. -/
theorem ReadSensors_enables_then_reads (tool : Tool) (m : Miflora) (trace : Trace)
    (hv : ¬ List.Lex (· < ·) m.firmware.Version (str "2.6.6"))
    (hw : (gattCharWrite tool trace m.mac (str "0x33") (str "A01F") m.adapter).1 = none) :
    (ReadSensors tool m trace).2.2
      = trace ++ [writeArgv m.mac (str "0x33") (str "A01F") m.adapter,
          readArgv m.mac (str "0x35") m.adapter] := by
  rw [ReadSensors_gate_open tool m trace ((stringGe_iff _ _).2 hv)]
  have ht := gattCharWrite_trace tool trace m.mac (str "0x33") (str "A01F") m.adapter
  cases hg : gattCharWrite tool trace m.mac (str "0x33") (str "A01F") m.adapter with
  | mk e t =>
    rw [hg] at hw ht
    simp only at hw ht
    subst hw ht
    simp only []
    rw [sensorRead_trace]
    simp

theorem ReadSensors_enables_then_reads_witness :
    (ReadSensors exampleTool (deviceWithVersion (str "3.1.8")) []).2.2
      = [] ++ [writeArgv (deviceWithVersion (str "3.1.8")).mac (str "0x33") (str "A01F")
            (deviceWithVersion (str "3.1.8")).adapter,
          readArgv (deviceWithVersion (str "3.1.8")).mac (str "0x35")
            (deviceWithVersion (str "3.1.8")).adapter] :=
  ReadSensors_enables_then_reads exampleTool (deviceWithVersion (str "3.1.8")) []
    (by rw [← stringGe_iff]; decide) (by decide)

/-- C5: when the cached version is lexicographically less than "2.6.6",
`ReadSensors` runs exactly one command, the read of handle 0x35, and no write;
this is the case of a device just built by `NewMiflora`, whose version is empty. -/
theorem ReadSensors_old_firmware_reads_only :
    (∀ (tool : Tool) (m : Miflora) (trace : Trace),
      List.Lex (· < ·) m.firmware.Version (str "2.6.6") →
      (ReadSensors tool m trace).2.2 = trace ++ [readArgv m.mac (str "0x35") m.adapter]) ∧
    (∀ (tool : Tool) (mac adapter : GoString) (trace : Trace),
      (ReadSensors tool (NewMiflora mac adapter) trace).2.2
        = trace ++ [readArgv mac (str "0x35") adapter]) := by
  have key : ∀ (tool : Tool) (m : Miflora) (trace : Trace),
      List.Lex (· < ·) m.firmware.Version (str "2.6.6") →
      (ReadSensors tool m trace).2.2 = trace ++ [readArgv m.mac (str "0x35") m.adapter] := by
    intro tool m trace hv
    have hf : stringGe m.firmware.Version (str "2.6.6") = false := by
      cases hs : stringGe m.firmware.Version (str "2.6.6") with
      | false => rfl
      | true => exact absurd hv ((stringGe_iff _ _).1 hs)
    rw [ReadSensors_gate_closed tool m trace hf, sensorRead_trace]
  refine ⟨key, ?_⟩
  intro tool mac adapter trace
  have hlt : List.Lex (· < ·) (NewMiflora mac adapter).firmware.Version (str "2.6.6") := by
    have hn : ¬ ¬ List.Lex (· < ·) (NewMiflora mac adapter).firmware.Version (str "2.6.6") := by
      rw [← stringGe_iff]
      show ¬ stringGe [] (str "2.6.6") = true
      decide
    exact not_not.mp hn
  exact key tool (NewMiflora mac adapter) trace hlt

theorem ReadSensors_old_firmware_reads_only_witness :
    (ReadSensors exampleTool (deviceWithVersion (str "2.10.0")) []).2.2
      = [] ++ [readArgv (deviceWithVersion (str "2.10.0")).mac (str "0x35")
          (deviceWithVersion (str "2.10.0")).adapter] :=
  ReadSensors_old_firmware_reads_only.1 exampleTool (deviceWithVersion (str "2.10.0")) []
    (by
      have hn : ¬ ¬ List.Lex (· < ·) (deviceWithVersion (str "2.10.0")).firmware.Version
          (str "2.6.6") := by
        rw [← stringGe_iff]
        decide
      exact not_not.mp hn)

/-- C6: when the cached version is lexicographically at least "2.6.6" and the
write to handle 0x33 fails with the error `e`, `ReadSensors` returns the zero
`Sensors` value with exactly the error `e`, and the failed write is the only
command it runs: handle 0x35 is not read. -/
theorem ReadSensors_write_failure (tool : Tool) (m : Miflora) (trace : Trace) (e : Error)
    (hv : ¬ List.Lex (· < ·) m.firmware.Version (str "2.6.6"))
    (hw : (gattCharWrite tool trace m.mac (str "0x33") (str "A01F") m.adapter).1 = some e) :
    (ReadSensors tool m trace).1 = Outcome.ret Sensors.zero (some e) ∧
      (ReadSensors tool m trace).2.2
        = trace ++ [writeArgv m.mac (str "0x33") (str "A01F") m.adapter] := by
  rw [ReadSensors_gate_open tool m trace ((stringGe_iff _ _).2 hv)]
  have ht := gattCharWrite_trace tool trace m.mac (str "0x33") (str "A01F") m.adapter
  cases hg : gattCharWrite tool trace m.mac (str "0x33") (str "A01F") m.adapter with
  | mk e1 t =>
    rw [hg] at hw ht
    simp only at hw ht
    subst hw ht
    exact ⟨rfl, rfl⟩

theorem ReadSensors_write_failure_witness :
    (ReadSensors failingTool (deviceWithVersion (str "2.6.6")) []).1
        = Outcome.ret Sensors.zero (some (Error.run (str "exit status 1"))) ∧
      (ReadSensors failingTool (deviceWithVersion (str "2.6.6")) []).2.2
        = [] ++ [writeArgv (deviceWithVersion (str "2.6.6")).mac (str "0x33") (str "A01F")
            (deviceWithVersion (str "2.6.6")).adapter] :=
  ReadSensors_write_failure failingTool (deviceWithVersion (str "2.6.6")) []
    (Error.run (str "exit status 1")) (by rw [← stringGe_iff]; decide) (by decide)

/-! ## Short responses -/

/-- C7, counterexample: the read of handle 0x35 yields the 9 bytes
`D2 00 00 64 00 00 00 28 90`, and `ReadSensors` returns without error the partly
decoded reading Temperature 21, Moisture 40, Light 100, Conductivity 0. -/
theorem ReadSensors_short_response_succeeds :
    (gattCharRead (constTool (str "Characteristic value/descriptor: d2 00 00 64 00 00 00 28 90 \n"))
        [] exampleDevice.mac (str "0x35") exampleDevice.adapter).1
      = Outcome.ret [0xD2, 0x00, 0x00, 0x64, 0x00, 0x00, 0x00, 0x28, 0x90] none ∧
    (ReadSensors (constTool (str "Characteristic value/descriptor: d2 00 00 64 00 00 00 28 90 \n"))
        exampleDevice []).1
      = Outcome.ret { Temperature := 21, Moisture := 40, Light := 100, Conductivity := 0 }
          none := by
  have hg : (gattCharRead
      (constTool (str "Characteristic value/descriptor: d2 00 00 64 00 00 00 28 90 \n"))
      [] exampleDevice.mac (str "0x35") exampleDevice.adapter).1
      = Outcome.ret [0xD2, 0x00, 0x00, 0x64, 0x00, 0x00, 0x00, 0x28, 0x90] none := by decide
  refine ⟨hg, ?_⟩
  rw [ReadSensors_gate_closed _ _ _ (by decide), sensorRead_value _ _ _ _ hg]
  decide

/-- C7, amended: when the read of handle 0x35 yields fewer than 10 bytes `d`
(after a closed gate, or after an open gate and a successful write),
`ReadSensors` reports no error: it returns the value `decodeSensors d` with a nil
error, and the Conductivity of that value is 0. -/
theorem ReadSensors_short_response :
    (∀ (tool : Tool) (m : Miflora) (trace : Trace) (d : List Byte), d.length < 10 →
      List.Lex (· < ·) m.firmware.Version (str "2.6.6") →
      (gattCharRead tool trace m.mac (str "0x35") m.adapter).1 = Outcome.ret d none →
      (ReadSensors tool m trace).1 = Outcome.ret (decodeSensors d) none ∧
        (decodeSensors d).Conductivity = 0) ∧
    (∀ (tool : Tool) (m : Miflora) (trace : Trace) (d : List Byte), d.length < 10 →
      ¬ List.Lex (· < ·) m.firmware.Version (str "2.6.6") →
      (gattCharWrite tool trace m.mac (str "0x33") (str "A01F") m.adapter).1 = none →
      (gattCharRead tool (trace ++ [writeArgv m.mac (str "0x33") (str "A01F") m.adapter])
        m.mac (str "0x35") m.adapter).1 = Outcome.ret d none →
      (ReadSensors tool m trace).1 = Outcome.ret (decodeSensors d) none ∧
        (decodeSensors d).Conductivity = 0) := by
  refine ⟨?_, ?_⟩
  · intro tool m trace d hd hv hr
    have hf : stringGe m.firmware.Version (str "2.6.6") = false := by
      cases hs : stringGe m.firmware.Version (str "2.6.6") with
      | false => rfl
      | true => exact absurd hv ((stringGe_iff _ _).1 hs)
    rw [ReadSensors_gate_closed tool m trace hf, sensorRead_value tool m trace d hr]
    exact ⟨rfl, decodeSensors_short_conductivity d hd⟩
  · intro tool m trace d hd hv hw hr
    rw [ReadSensors_gate_open tool m trace ((stringGe_iff _ _).2 hv)]
    have ht := gattCharWrite_trace tool trace m.mac (str "0x33") (str "A01F") m.adapter
    cases hg : gattCharWrite tool trace m.mac (str "0x33") (str "A01F") m.adapter with
    | mk e t =>
      rw [hg] at hw ht
      simp only at hw ht
      subst hw ht
      simp only []
      rw [sensorRead_value tool m _ d hr]
      exact ⟨rfl, decodeSensors_short_conductivity d hd⟩

theorem ReadSensors_short_response_witness :
    ((ReadSensors (constTool (str "Characteristic value/descriptor: 2e ff 00 \n"))
          (deviceWithVersion (str "2.10.0")) []).1
        = Outcome.ret (decodeSensors [0x2E, 0xFF, 0x00]) none ∧
      (decodeSensors [0x2E, 0xFF, 0x00]).Conductivity = 0) ∧
    ((ReadSensors
          (ackTool (str "Characteristic value/descriptor: d2 00 00 64 00 00 00 28 \n"))
          (deviceWithVersion (str "3.1.8")) []).1
        = Outcome.ret (decodeSensors [0xD2, 0x00, 0x00, 0x64, 0x00, 0x00, 0x00, 0x28]) none ∧
      (decodeSensors [0xD2, 0x00, 0x00, 0x64, 0x00, 0x00, 0x00, 0x28]).Conductivity = 0) :=
  ⟨ReadSensors_short_response.1
      (constTool (str "Characteristic value/descriptor: 2e ff 00 \n"))
      (deviceWithVersion (str "2.10.0")) [] [0x2E, 0xFF, 0x00] (by decide)
      (by
        have hn : ¬ ¬ List.Lex (· < ·) (deviceWithVersion (str "2.10.0")).firmware.Version
            (str "2.6.6") := by
          rw [← stringGe_iff]
          decide
        exact not_not.mp hn)
      (by decide),
    ReadSensors_short_response.2
      (ackTool (str "Characteristic value/descriptor: d2 00 00 64 00 00 00 28 \n"))
      (deviceWithVersion (str "3.1.8")) []
      [0xD2, 0x00, 0x00, 0x64, 0x00, 0x00, 0x00, 0x28] (by decide)
      (by rw [← stringGe_iff]; decide) (by decide) (by decide)⟩

/-- C8, counterexample: the read of handle 0x38 yields the 2 bytes `5A 00`, and
`ReadFirmware` returns the firmware with Battery 90 and the empty version, with
a nil error. -/
theorem ReadFirmware_two_bytes_succeeds :
    (gattCharRead (constTool (str "Characteristic value/descriptor: 5a 00 \n")) []
        exampleDevice.mac (str "0x38") exampleDevice.adapter).1
      = Outcome.ret [0x5A, 0x00] none ∧
    (ReadFirmware (constTool (str "Characteristic value/descriptor: 5a 00 \n"))
        exampleDevice []).1
      = Outcome.ret { Version := [], Battery := 0x5A } none := by
  decide

/-- C8, amended: when the read of handle 0x38 yields exactly 2 bytes `d`,
`ReadFirmware` does not fail: it returns the firmware with `Battery = d[0]` and
the empty version, with a nil error. -/
theorem ReadFirmware_two_bytes (tool : Tool) (m : Miflora) (trace : Trace) (d : List Byte)
    (h : d.length = 2)
    (hr : (gattCharRead tool trace m.mac (str "0x38") m.adapter).1 = Outcome.ret d none) :
    (ReadFirmware tool m trace).1 = Outcome.ret { Version := [], Battery := d[0] } none := by
  match d, h with
  | [a, b], _ =>
    rw [ReadFirmware_of_read_cons tool m trace a b [] hr]
    rfl

theorem ReadFirmware_two_bytes_witness :
    (ReadFirmware (constTool (str "Characteristic value/descriptor: 64 10 \n"))
        exampleDevice []).1
      = Outcome.ret { Version := [], Battery := 0x64 } none :=
  ReadFirmware_two_bytes (constTool (str "Characteristic value/descriptor: 64 10 \n"))
    exampleDevice [] [0x64, 0x10] rfl (by decide)

/-! ## The firmware cache -/

/-- C9: whatever firmware was cached before, a successful `ReadFirmware` runs
exactly one command, the read of handle 0x38, and afterwards the cached firmware
of the device is the value it returned. -/
theorem ReadFirmware_caches (tool : Tool) (m : Miflora) (trace : Trace) (f : Firmware)
    (hok : (ReadFirmware tool m trace).1 = Outcome.ret f none) :
    (ReadFirmware tool m trace).2.2 = trace ++ [readArgv m.mac (str "0x38") m.adapter] ∧
      (ReadFirmware tool m trace).2.1.firmware = f := by
  refine ⟨ReadFirmware_trace tool m trace, ?_⟩
  unfold ReadFirmware at hok ⊢
  cases hg : gattCharRead tool trace m.mac (str "0x38") m.adapter with
  | mk o t =>
    rw [hg] at hok
    cases o with
    | panic => simp at hok
    | ret v e =>
      cases e with
      | some e1 => simp at hok
      | none =>
        simp only [] at hok ⊢
        cases hs : sliceFrom v 2 with
        | none => simp [hs] at hok
        | some w =>
          cases hi : index v 0 with
          | none => simp [hs, hi] at hok
          | some b =>
            simp only [hs, hi, Outcome.ret.injEq, and_true] at hok ⊢
            exact hok

theorem ReadFirmware_caches_witness :
    (ReadFirmware exampleTool (deviceWithVersion (str "2.6.2")) []).2.2
        = [] ++ [readArgv (deviceWithVersion (str "2.6.2")).mac (str "0x38")
            (deviceWithVersion (str "2.6.2")).adapter] ∧
      (ReadFirmware exampleTool (deviceWithVersion (str "2.6.2")) []).2.1.firmware
        = { Version := str "3.1.8", Battery := 90 } :=
  ReadFirmware_caches exampleTool (deviceWithVersion (str "2.6.2")) []
    { Version := str "3.1.8", Battery := 90 } (by decide)

/-- C10: when the read of handle 0x38 returns at least 3 bytes `d`, the commands
run by the next `ReadSensors` start with the write of `A01F` to handle 0x33 if
and only if the bytes of `d` from offset 2 are lexicographically at least
"2.6.6"; in that case they are that write followed by the read of handle 0x35,
or that write alone, and otherwise they are the read of handle 0x35 alone. For
`d = 5A 00 '3' '.' '1' '.' '8'` the write comes first. -/
theorem ReadFirmware_then_ReadSensors :
    (∀ (tool : Tool) (m : Miflora) (trace : Trace) (d : List Byte), 3 ≤ d.length →
      (gattCharRead tool trace m.mac (str "0x38") m.adapter).1 = Outcome.ret d none →
      ((sensorCalls tool (ReadFirmware tool m trace).2.1 (ReadFirmware tool m trace).2.2).head?
            = some (writeArgv m.mac (str "0x33") (str "A01F") m.adapter) ↔
          ¬ List.Lex (· < ·) (d.drop 2) (str "2.6.6")) ∧
        (¬ List.Lex (· < ·) (d.drop 2) (str "2.6.6") →
          sensorCalls tool (ReadFirmware tool m trace).2.1 (ReadFirmware tool m trace).2.2
              = [writeArgv m.mac (str "0x33") (str "A01F") m.adapter,
                  readArgv m.mac (str "0x35") m.adapter] ∨
            sensorCalls tool (ReadFirmware tool m trace).2.1 (ReadFirmware tool m trace).2.2
              = [writeArgv m.mac (str "0x33") (str "A01F") m.adapter]) ∧
        (List.Lex (· < ·) (d.drop 2) (str "2.6.6") →
          sensorCalls tool (ReadFirmware tool m trace).2.1 (ReadFirmware tool m trace).2.2
            = [readArgv m.mac (str "0x35") m.adapter])) ∧
    (∀ (tool : Tool) (m : Miflora) (trace : Trace),
      (gattCharRead tool trace m.mac (str "0x38") m.adapter).1
        = Outcome.ret [0x5A, 0x00, 0x33, 0x2E, 0x31, 0x2E, 0x38] none →
      (sensorCalls tool (ReadFirmware tool m trace).2.1 (ReadFirmware tool m trace).2.2).head?
        = some (writeArgv m.mac (str "0x33") (str "A01F") m.adapter)) := by
  have key : ∀ (tool : Tool) (m : Miflora) (trace : Trace) (d : List Byte), 3 ≤ d.length →
      (gattCharRead tool trace m.mac (str "0x38") m.adapter).1 = Outcome.ret d none →
      ((sensorCalls tool (ReadFirmware tool m trace).2.1 (ReadFirmware tool m trace).2.2).head?
            = some (writeArgv m.mac (str "0x33") (str "A01F") m.adapter) ↔
          ¬ List.Lex (· < ·) (d.drop 2) (str "2.6.6")) ∧
        (¬ List.Lex (· < ·) (d.drop 2) (str "2.6.6") →
          sensorCalls tool (ReadFirmware tool m trace).2.1 (ReadFirmware tool m trace).2.2
              = [writeArgv m.mac (str "0x33") (str "A01F") m.adapter,
                  readArgv m.mac (str "0x35") m.adapter] ∨
            sensorCalls tool (ReadFirmware tool m trace).2.1 (ReadFirmware tool m trace).2.2
              = [writeArgv m.mac (str "0x33") (str "A01F") m.adapter]) ∧
        (List.Lex (· < ·) (d.drop 2) (str "2.6.6") →
          sensorCalls tool (ReadFirmware tool m trace).2.1 (ReadFirmware tool m trace).2.2
            = [readArgv m.mac (str "0x35") m.adapter]) := by
    intro tool m trace d h hr
    match d, h with
    | a :: b :: c :: rest, _ =>
      rw [ReadFirmware_of_read_cons tool m trace a b (c :: rest) hr]
      simp only [List.drop_succ_cons, List.drop_zero]
      have hopen := sensorCalls_gate_open tool
        { m with firmware := { Version := c :: rest, Battery := a } }
        (trace ++ [readArgv m.mac (str "0x38") m.adapter])
      have hclosed := sensorCalls_gate_closed tool
        { m with firmware := { Version := c :: rest, Battery := a } }
        (trace ++ [readArgv m.mac (str "0x38") m.adapter])
      simp only [] at hopen hclosed
      cases hs : stringGe (c :: rest) (str "2.6.6") with
      | true =>
        have hge : ¬ List.Lex (· < ·) (c :: rest) (str "2.6.6") := (stringGe_iff _ _).1 hs
        have hcalls := hopen hs
        refine ⟨⟨fun _ => hge, fun _ => ?_⟩, fun _ => hcalls, fun hlt => absurd hlt hge⟩
        rcases hcalls with hc | hc <;> rw [hc] <;> rfl
      | false =>
        have hlt : List.Lex (· < ·) (c :: rest) (str "2.6.6") := by
          by_contra hn
          rw [(stringGe_iff _ _).2 hn] at hs
          exact Bool.noConfusion hs
        have hcalls := hclosed hs
        refine ⟨⟨fun hh => ?_, fun hge => absurd hlt hge⟩, fun hge => absurd hlt hge,
          fun _ => hcalls⟩
        rw [hcalls] at hh
        simp only [List.head?_cons, Option.some.injEq] at hh
        exact absurd hh (readArgv_ne_writeArgv _ _ _ _ _ _ _)
  refine ⟨key, ?_⟩
  intro tool m trace hr
  exact (key tool m trace _ (by decide) hr).1.2 (by rw [← stringGe_iff]; decide)

theorem ReadFirmware_then_ReadSensors_witness :
    ((sensorCalls exampleTool (ReadFirmware exampleTool exampleDevice []).2.1
            (ReadFirmware exampleTool exampleDevice []).2.2).head?
          = some (writeArgv exampleDevice.mac (str "0x33") (str "A01F") exampleDevice.adapter) ↔
        ¬ List.Lex (· < ·) (List.drop 2 [0x5A, 0x00, 0x33, 0x2E, 0x31, 0x2E, 0x38])
          (str "2.6.6")) ∧
      (sensorCalls exampleTool (ReadFirmware exampleTool exampleDevice []).2.1
            (ReadFirmware exampleTool exampleDevice []).2.2).head?
        = some (writeArgv exampleDevice.mac (str "0x33") (str "A01F") exampleDevice.adapter) :=
  ⟨(ReadFirmware_then_ReadSensors.1 exampleTool exampleDevice []
      [0x5A, 0x00, 0x33, 0x2E, 0x31, 0x2E, 0x38] (by decide) (by decide)).1,
    ReadFirmware_then_ReadSensors.2 exampleTool exampleDevice [] (by decide)⟩

/-! ## Errors of the transport -/

/-- C11: a failed read is passed on unchanged and is not retried. When the read
of handle 0x38 fails with the error `e`, `ReadFirmware` returns exactly `e` and
that read is the only command it ran. When the read of handle 0x35 fails with
`e`, `ReadSensors` returns exactly `e` and that read is the last command it
ran. -/
theorem read_errors_propagate :
    (∀ (tool : Tool) (m : Miflora) (trace : Trace) (d : List Byte) (e : Error),
      (gattCharRead tool trace m.mac (str "0x38") m.adapter).1 = Outcome.ret d (some e) →
      (ReadFirmware tool m trace).1 = Outcome.ret Firmware.zero (some e) ∧
        (ReadFirmware tool m trace).2.2
          = trace ++ [readArgv m.mac (str "0x38") m.adapter]) ∧
    (∀ (tool : Tool) (m : Miflora) (trace : Trace) (d : List Byte) (e : Error),
      List.Lex (· < ·) m.firmware.Version (str "2.6.6") →
      (gattCharRead tool trace m.mac (str "0x35") m.adapter).1 = Outcome.ret d (some e) →
      (ReadSensors tool m trace).1 = Outcome.ret Sensors.zero (some e) ∧
        (ReadSensors tool m trace).2.2
          = trace ++ [readArgv m.mac (str "0x35") m.adapter]) ∧
    (∀ (tool : Tool) (m : Miflora) (trace : Trace) (d : List Byte) (e : Error),
      ¬ List.Lex (· < ·) m.firmware.Version (str "2.6.6") →
      (gattCharWrite tool trace m.mac (str "0x33") (str "A01F") m.adapter).1 = none →
      (gattCharRead tool (trace ++ [writeArgv m.mac (str "0x33") (str "A01F") m.adapter])
        m.mac (str "0x35") m.adapter).1 = Outcome.ret d (some e) →
      (ReadSensors tool m trace).1 = Outcome.ret Sensors.zero (some e) ∧
        (ReadSensors tool m trace).2.2
          = trace ++ [writeArgv m.mac (str "0x33") (str "A01F") m.adapter,
              readArgv m.mac (str "0x35") m.adapter]) := by
  refine ⟨?_, ?_, ?_⟩
  · intro tool m trace d e hr
    rw [ReadFirmware_of_read_error tool m trace d e hr]
    exact ⟨rfl, rfl⟩
  · intro tool m trace d e hv hr
    rw [ReadSensors_gate_closed tool m trace (stringGe_false_of_lex _ _ hv)]
    exact ⟨sensorRead_error tool m trace d e hr, sensorRead_trace tool m trace⟩
  · intro tool m trace d e hv hw hr
    rw [ReadSensors_gate_open tool m trace ((stringGe_iff _ _).2 hv)]
    have ht := gattCharWrite_trace tool trace m.mac (str "0x33") (str "A01F") m.adapter
    cases hg : gattCharWrite tool trace m.mac (str "0x33") (str "A01F") m.adapter with
    | mk e1 t =>
      rw [hg] at hw ht
      simp only at hw ht
      subst hw ht
      simp only []
      refine ⟨sensorRead_error tool m _ d e hr, ?_⟩
      rw [sensorRead_trace]
      simp

theorem read_errors_propagate_witness :
    ((ReadFirmware failingTool exampleDevice []).1
        = Outcome.ret Firmware.zero (some (Error.run (str "exit status 1"))) ∧
      (ReadFirmware failingTool exampleDevice []).2.2
        = [] ++ [readArgv exampleDevice.mac (str "0x38") exampleDevice.adapter]) ∧
    ((ReadSensors failingTool (deviceWithVersion (str "2.10.0")) []).1
        = Outcome.ret Sensors.zero (some (Error.run (str "exit status 1"))) ∧
      (ReadSensors failingTool (deviceWithVersion (str "2.10.0")) []).2.2
        = [] ++ [readArgv (deviceWithVersion (str "2.10.0")).mac (str "0x35")
            (deviceWithVersion (str "2.10.0")).adapter]) ∧
    ((ReadSensors (ackTool (str "no such handle\n")) (deviceWithVersion (str "3.1.8")) []).1
        = Outcome.ret Sensors.zero (some (Error.new (str "Unexpected response"))) ∧
      (ReadSensors (ackTool (str "no such handle\n")) (deviceWithVersion (str "3.1.8")) []).2.2
        = [] ++ [writeArgv (deviceWithVersion (str "3.1.8")).mac (str "0x33") (str "A01F")
              (deviceWithVersion (str "3.1.8")).adapter,
            readArgv (deviceWithVersion (str "3.1.8")).mac (str "0x35")
              (deviceWithVersion (str "3.1.8")).adapter]) :=
  ⟨read_errors_propagate.1 failingTool exampleDevice [] []
      (Error.run (str "exit status 1")) (by decide),
    read_errors_propagate.2.1 failingTool (deviceWithVersion (str "2.10.0")) [] []
      (Error.run (str "exit status 1"))
      (lex_of_stringGe_false _ _ (by decide)) (by decide),
    read_errors_propagate.2.2 (ackTool (str "no such handle\n"))
      (deviceWithVersion (str "3.1.8")) [] []
      (Error.new (str "Unexpected response"))
      (by rw [← stringGe_iff]; decide) (by decide) (by decide)⟩

/-- C12: a failed `ReadFirmware` does not touch the cache. When the read of
handle 0x38 fails, the cached firmware after the call is the cached firmware
before it, so a later `ReadSensors` behaves exactly as it would on the device
before the call. -/
theorem ReadFirmware_failure_keeps_cache (tool : Tool) (m : Miflora) (trace : Trace)
    (d : List Byte) (e : Error)
    (hr : (gattCharRead tool trace m.mac (str "0x38") m.adapter).1
      = Outcome.ret d (some e)) :
    (ReadFirmware tool m trace).2.1.firmware = m.firmware ∧
      stringGe (ReadFirmware tool m trace).2.1.firmware.Version (str "2.6.6")
        = stringGe m.firmware.Version (str "2.6.6") ∧
      ∀ (tool2 : Tool) (trace2 : Trace),
        ReadSensors tool2 (ReadFirmware tool m trace).2.1 trace2
          = ReadSensors tool2 m trace2 := by
  rw [ReadFirmware_of_read_error tool m trace d e hr]
  exact ⟨rfl, rfl, fun _ _ => rfl⟩

theorem ReadFirmware_failure_keeps_cache_witness :
    (ReadFirmware failingTool (deviceWithVersion (str "3.1.8")) []).2.1.firmware
        = (deviceWithVersion (str "3.1.8")).firmware ∧
      stringGe (ReadFirmware failingTool (deviceWithVersion (str "3.1.8")) []).2.1.firmware.Version
          (str "2.6.6")
        = stringGe (deviceWithVersion (str "3.1.8")).firmware.Version (str "2.6.6") ∧
      ∀ (tool2 : Tool) (trace2 : Trace),
        ReadSensors tool2 (ReadFirmware failingTool (deviceWithVersion (str "3.1.8")) []).2.1
            trace2
          = ReadSensors tool2 (deviceWithVersion (str "3.1.8")) trace2 :=
  ReadFirmware_failure_keeps_cache failingTool (deviceWithVersion (str "3.1.8")) [] []
    (Error.run (str "exit status 1")) (by decide)

/-- C13: `ReadSensors` leaves the whole device (address, adapter and cached
firmware) unchanged, whatever the transport does, and `ReadFirmware` leaves the
address and the adapter unchanged. -/
theorem device_identity_preserved (tool : Tool) (m : Miflora) (trace : Trace) :
    ((ReadSensors tool m trace).2.1.mac = m.mac ∧
      (ReadSensors tool m trace).2.1.adapter = m.adapter ∧
      (ReadSensors tool m trace).2.1.firmware = m.firmware) ∧
    ((ReadFirmware tool m trace).2.1.mac = m.mac ∧
      (ReadFirmware tool m trace).2.1.adapter = m.adapter) := by
  constructor
  · have hdev : (ReadSensors tool m trace).2.1 = m := by
      cases hs : stringGe m.firmware.Version (str "2.6.6") with
      | false =>
        rw [ReadSensors_gate_closed tool m trace hs]
        exact sensorRead_device tool m trace
      | true =>
        rw [ReadSensors_gate_open tool m trace hs]
        cases hg : gattCharWrite tool trace m.mac (str "0x33") (str "A01F") m.adapter with
        | mk e t =>
          cases e with
          | some e1 => rfl
          | none => exact sensorRead_device tool m t
    rw [hdev]
    exact ⟨rfl, rfl, rfl⟩
  · unfold ReadFirmware
    cases hg : gattCharRead tool trace m.mac (str "0x38") m.adapter with
    | mk o t =>
      cases o with
      | panic => exact ⟨rfl, rfl⟩
      | ret v e =>
        cases e with
        | some e1 => exact ⟨rfl, rfl⟩
        | none =>
          simp only []
          split
          · exact ⟨rfl, rfl⟩
          · split <;> exact ⟨rfl, rfl⟩

/-- C14: the gate of `ReadSensors` compares byte strings lexicographically. The
first command of `ReadSensors` is the write to handle 0x33 exactly when the cached
version is not lexicographically below "2.6.6". The version "2.10.0" is
lexicographically below "2.6.6", and with it `ReadSensors` runs only the read of
handle 0x35. -/
theorem ReadSensors_gate_is_lexicographic :
    (∀ (tool : Tool) (m : Miflora) (trace : Trace),
      (sensorCalls tool m trace).head?
          = some (writeArgv m.mac (str "0x33") (str "A01F") m.adapter) ↔
        ¬ List.Lex (· < ·) m.firmware.Version (str "2.6.6")) ∧
    List.Lex (· < ·) (str "2.10.0") (str "2.6.6") ∧
    (∀ (tool : Tool) (mac adapter : GoString) (battery : Byte) (trace : Trace),
      (ReadSensors tool
          { mac := mac, adapter := adapter,
            firmware := { Version := str "2.10.0", Battery := battery } } trace).2.2
        = trace ++ [readArgv mac (str "0x35") adapter]) := by
  refine ⟨?_, lex_of_stringGe_false _ _ (by decide), ?_⟩
  · intro tool m trace
    cases hs : stringGe m.firmware.Version (str "2.6.6") with
    | true =>
      have hge := (stringGe_iff _ _).1 hs
      refine ⟨fun _ => hge, fun _ => ?_⟩
      rcases sensorCalls_gate_open tool m trace hs with hc | hc <;> rw [hc] <;> rfl
    | false =>
      have hlt := lex_of_stringGe_false _ _ hs
      refine ⟨fun hh => ?_, fun hge => absurd hlt hge⟩
      rw [sensorCalls_gate_closed tool m trace hs] at hh
      simp only [List.head?_cons, Option.some.injEq] at hh
      exact absurd hh (readArgv_ne_writeArgv _ _ _ _ _ _ _)
  · intro tool mac adapter battery trace
    have hs : stringGe (str "2.10.0") (str "2.6.6") = false := by decide
    rw [ReadSensors_gate_closed tool _ trace hs, sensorRead_trace]

/-! ## Parsing the console output -/

/-- C15: the label has 33 bytes, the offset used by `gattCharRead`. When the tool
exits without error and prints the label followed by the two-digit lowercase hex
of each byte of `bs`, separated by spaces and ended by a newline, `gattCharRead`
returns exactly `bs`; for the line `64 10 32 2e 36 2e 32` it returns those 7
bytes. When the tool exits without error and its output does not start with the
label, `gattCharRead` returns the error "Unexpected response". -/
theorem gattCharRead_parses_output :
    (str "Characteristic value/descriptor: ").length = 33 ∧
    (∀ (tool : Tool) (trace : Trace) (mac handle adapter : GoString) (bs : List Byte),
      tool trace (readArgv mac handle adapter)
        = { stdout := charReadOutput bs, err := none } →
      (gattCharRead tool trace mac handle adapter).1 = Outcome.ret bs none) ∧
    (∀ (tool : Tool) (trace : Trace) (mac handle adapter : GoString),
      tool trace (readArgv mac handle adapter)
        = { stdout := str "Characteristic value/descriptor: 64 10 32 2e 36 2e 32\n",
            err := none } →
      (gattCharRead tool trace mac handle adapter).1
        = Outcome.ret [0x64, 0x10, 0x32, 0x2e, 0x36, 0x2e, 0x32] none) ∧
    (∀ (tool : Tool) (trace : Trace) (mac handle adapter : GoString),
      (tool trace (readArgv mac handle adapter)).err = none →
      ¬ (str "Characteristic value/descriptor: "
          <+: (tool trace (readArgv mac handle adapter)).stdout) →
      (gattCharRead tool trace mac handle adapter).1
        = Outcome.ret [] (some (Error.new (str "Unexpected response")))) := by
  have key : ∀ (tool : Tool) (trace : Trace) (mac handle adapter : GoString)
      (bs : List Byte),
      tool trace (readArgv mac handle adapter)
        = { stdout := charReadOutput bs, err := none } →
      (gattCharRead tool trace mac handle adapter).1 = Outcome.ret bs none := by
    intro tool trace mac handle adapter bs hrun
    rw [gattCharRead_of_label tool trace mac handle adapter (hexFields bs ++ [0x0a]) hrun]
    have hnl : replacerReplace [(0x0a : Byte)] = [] := by decide
    rw [replacerReplace_append, replacerReplace_hexFields, hnl, List.append_nil,
      hexDecodeString_hex]
  refine ⟨label_length, key, ?_, ?_⟩
  · intro tool trace mac handle adapter hrun
    have hout : str "Characteristic value/descriptor: 64 10 32 2e 36 2e 32\n"
        = charReadOutput [0x64, 0x10, 0x32, 0x2e, 0x36, 0x2e, 0x32] := by decide
    rw [hout] at hrun
    exact key tool trace mac handle adapter _ hrun
  · intro tool trace mac handle adapter herr hpre
    have hp : stringsHasPrefix (tool trace (readArgv mac handle adapter)).stdout
        (str "Characteristic value/descriptor: ") = false := by
      cases hb : stringsHasPrefix (tool trace (readArgv mac handle adapter)).stdout
          (str "Characteristic value/descriptor: ") with
      | false => rfl
      | true =>
        rw [stringsHasPrefix, List.isPrefixOf_iff_prefix] at hb
        exact absurd hb hpre
    simp only [gattCharRead, herr, hp, Bool.not_false, if_true]

theorem gattCharRead_parses_output_witness :
    (gattCharRead (constTool (charReadOutput [0x00, 0x0f, 0xa0, 0xff])) []
          (str "C4:7C:8D:6A:5E:15") (str "0x35") (str "hci0")).1
        = Outcome.ret [0x00, 0x0f, 0xa0, 0xff] none ∧
      (gattCharRead
          (constTool (str "Characteristic value/descriptor: 64 10 32 2e 36 2e 32\n")) []
          (str "C4:7C:8D:6A:5E:15") (str "0x38") (str "hci0")).1
        = Outcome.ret [0x64, 0x10, 0x32, 0x2e, 0x36, 0x2e, 0x32] none ∧
      (gattCharRead (constTool (str "connect error: Connection refused (111)\n")) []
          (str "C4:7C:8D:6A:5E:15") (str "0x38") (str "hci0")).1
        = Outcome.ret [] (some (Error.new (str "Unexpected response"))) :=
  ⟨gattCharRead_parses_output.2.1 (constTool (charReadOutput [0x00, 0x0f, 0xa0, 0xff])) []
      (str "C4:7C:8D:6A:5E:15") (str "0x35") (str "hci0") [0x00, 0x0f, 0xa0, 0xff] rfl,
    gattCharRead_parses_output.2.2.1
      (constTool (str "Characteristic value/descriptor: 64 10 32 2e 36 2e 32\n")) []
      (str "C4:7C:8D:6A:5E:15") (str "0x38") (str "hci0") rfl,
    gattCharRead_parses_output.2.2.2
      (constTool (str "connect error: Connection refused (111)\n")) []
      (str "C4:7C:8D:6A:5E:15") (str "0x38") (str "hci0") rfl
      (by
        rw [← List.isPrefixOf_iff_prefix]
        decide)⟩

/-- C16: when the tool exits without error, `gattCharWrite` returns no error if
and only if the output of the tool contains the text "successfully", and
otherwise it returns the error "Unexpected response"; when the tool exits with
the error `e`, `gattCharWrite` returns `e`. -/
theorem gattCharWrite_acknowledgement :
    (∀ (tool : Tool) (trace : Trace) (mac handle value adapter : GoString),
      (tool trace (writeArgv mac handle value adapter)).err = none →
      ((gattCharWrite tool trace mac handle value adapter).1 = none ↔
          str "successfully" <:+: (tool trace (writeArgv mac handle value adapter)).stdout) ∧
        (¬ (str "successfully"
            <:+: (tool trace (writeArgv mac handle value adapter)).stdout) →
          (gattCharWrite tool trace mac handle value adapter).1
            = some (Error.new (str "Unexpected response")))) ∧
    (∀ (tool : Tool) (trace : Trace) (mac handle value adapter : GoString) (e : Error),
      (tool trace (writeArgv mac handle value adapter)).err = some e →
      (gattCharWrite tool trace mac handle value adapter).1 = some e) := by
  refine ⟨?_, ?_⟩
  · intro tool trace mac handle value adapter herr
    cases hc : stringsContains (tool trace (writeArgv mac handle value adapter)).stdout
        (str "successfully") with
    | true =>
      have hin := (stringsContains_iff _ _).1 hc
      have hres : (gattCharWrite tool trace mac handle value adapter).1 = none := by
        simp only [gattCharWrite, herr, hc, Bool.not_true, Bool.false_eq_true, if_false]
      exact ⟨⟨fun _ => hin, fun _ => hres⟩, fun hn => absurd hin hn⟩
    | false =>
      have hnin : ¬ (str "successfully"
          <:+: (tool trace (writeArgv mac handle value adapter)).stdout) := by
        intro hin
        rw [(stringsContains_iff _ _).2 hin] at hc
        exact Bool.noConfusion hc
      have hres : (gattCharWrite tool trace mac handle value adapter).1
          = some (Error.new (str "Unexpected response")) := by
        simp only [gattCharWrite, herr, hc, Bool.not_false, if_true]
      refine ⟨⟨fun h => ?_, fun hin => absurd hin hnin⟩, fun _ => hres⟩
      rw [hres] at h
      exact Option.noConfusion h
  · intro tool trace mac handle value adapter e herr
    simp only [gattCharWrite, herr]

theorem gattCharWrite_acknowledgement_witness :
    (((gattCharWrite exampleTool [] (str "C4:7C:8D:6A:5E:15") (str "0x33") (str "A01F")
            (str "hci0")).1 = none ↔
        str "successfully" <:+: (exampleTool []
          (writeArgv (str "C4:7C:8D:6A:5E:15") (str "0x33") (str "A01F")
            (str "hci0"))).stdout) ∧
      (¬ (str "successfully" <:+: (exampleTool []
          (writeArgv (str "C4:7C:8D:6A:5E:15") (str "0x33") (str "A01F")
            (str "hci0"))).stdout) →
        (gattCharWrite exampleTool [] (str "C4:7C:8D:6A:5E:15") (str "0x33") (str "A01F")
            (str "hci0")).1 = some (Error.new (str "Unexpected response")))) ∧
    (gattCharWrite failingTool [] (str "C4:7C:8D:6A:5E:15") (str "0x33") (str "A01F")
        (str "hci0")).1 = some (Error.run (str "exit status 1")) :=
  ⟨gattCharWrite_acknowledgement.1 exampleTool [] (str "C4:7C:8D:6A:5E:15") (str "0x33")
      (str "A01F") (str "hci0") (by decide),
    gattCharWrite_acknowledgement.2 failingTool [] (str "C4:7C:8D:6A:5E:15") (str "0x33")
      (str "A01F") (str "hci0") (Error.run (str "exit status 1")) rfl⟩

/-! ## Responses of other lengths -/

/-- C17: `decodeSensors` returns a value for every input and reports no error.
For an input `d` of fewer than 10 bytes, a field whose bytes all lie inside `d`
has the value of the 10 byte layout (temperature from bytes 0-1, the `float64`
quotient of their signed integer by 10, the same as for every 10 byte input that
starts with `d`; light from bytes 3-4; moisture from byte 7), every field with a
missing byte is 0, and the conductivity is always 0; the empty input decodes to
the all-zero reading. -/
theorem decodeSensors_short_input :
    (∀ d : List Byte, d.length < 10 →
      (∀ h : 2 ≤ d.length, (decodeSensors d).Temperature =
        float64Quotient
          (if (d[1]).val < 128 then ((d[0]).val : Int) + 256 * ((d[1]).val : Int)
            else ((d[0]).val : Int) + 256 * ((d[1]).val : Int) - 65536) 10) ∧
      (∀ pad : List Byte, (d ++ pad).length = 10 → 2 ≤ d.length →
        (decodeSensors d).Temperature = (decodeSensors (d ++ pad)).Temperature) ∧
      (d.length < 2 → (decodeSensors d).Temperature = 0) ∧
      (∀ h : 5 ≤ d.length, (decodeSensors d).Light = (d[3]).val + 256 * (d[4]).val) ∧
      (d.length < 5 → (decodeSensors d).Light = 0) ∧
      (∀ h : 8 ≤ d.length, (decodeSensors d).Moisture = d[7]) ∧
      (d.length < 8 → (decodeSensors d).Moisture = 0) ∧
      (decodeSensors d).Conductivity = 0) ∧
    decodeSensors [] = Sensors.zero := by
  refine ⟨?_, ?_⟩
  · intro d hd
    refine ⟨?_, ?_, decodeSensors_short_temperature d, ?_, decodeSensors_short_light d, ?_,
      decodeSensors_short_moisture d, decodeSensors_short_conductivity d hd⟩
    · intro h
      match d, h with
      | b0 :: b1 :: rest, _ =>
        rw [decodeSensors_temperature_of, toInt16_pair]
        simp
    · intro pad _ h
      match d, h with
      | b0 :: b1 :: rest, _ =>
        rw [List.cons_append, List.cons_append, decodeSensors_temperature_of,
          decodeSensors_temperature_of]
    · intro h
      match d, h with
      | b0 :: b1 :: b2 :: b3 :: b4 :: rest, _ =>
        rw [decodeSensors_light_of]
        simp
    · intro h
      match d, h with
      | b0 :: b1 :: b2 :: b3 :: b4 :: b5 :: b6 :: b7 :: rest, _ =>
        rw [decodeSensors_moisture_of]
        simp
  · decide

theorem decodeSensors_short_input_witness :
    (decodeSensors [0x2E, 0xFF, 0x07, 0x10, 0x27, 0x08]).Temperature
        = float64Quotient
            (if ((0xFF : Byte)).val < 128 then (((0x2E : Byte)).val : Int)
                + 256 * (((0xFF : Byte)).val : Int)
              else (((0x2E : Byte)).val : Int) + 256 * (((0xFF : Byte)).val : Int) - 65536)
            10 ∧
      (decodeSensors [0x2E, 0xFF, 0x07, 0x10, 0x27, 0x08]).Temperature
        = (decodeSensors ([0x2E, 0xFF, 0x07, 0x10, 0x27, 0x08]
            ++ [0x09, 0x63, 0xFF, 0xFF])).Temperature ∧
      (decodeSensors [0x2E]).Temperature = 0 ∧
      (decodeSensors [0x2E, 0xFF, 0x07, 0x10, 0x27, 0x08]).Light = 0x10 + 256 * 0x27 ∧
      (decodeSensors [0x2E, 0xFF, 0x07, 0x10]).Light = 0 ∧
      (decodeSensors [0x2E, 0xFF, 0x07, 0x10, 0x27, 0x08, 0x09, 0x63, 0xFF]).Moisture
        = 0x63 ∧
      (decodeSensors [0x2E, 0xFF, 0x07, 0x10, 0x27, 0x08, 0x09]).Moisture = 0 ∧
      (decodeSensors [0x2E, 0xFF, 0x07, 0x10, 0x27, 0x08, 0x09, 0x63, 0xFF]).Conductivity
        = 0 :=
  ⟨(decodeSensors_short_input.1 [0x2E, 0xFF, 0x07, 0x10, 0x27, 0x08] (by decide)).1
      (by decide),
    (decodeSensors_short_input.1 [0x2E, 0xFF, 0x07, 0x10, 0x27, 0x08] (by decide)).2.1
      [0x09, 0x63, 0xFF, 0xFF] (by decide) (by decide),
    (decodeSensors_short_input.1 [0x2E] (by decide)).2.2.1 (by decide),
    (decodeSensors_short_input.1 [0x2E, 0xFF, 0x07, 0x10, 0x27, 0x08] (by decide)).2.2.2.1
      (by decide),
    (decodeSensors_short_input.1 [0x2E, 0xFF, 0x07, 0x10] (by decide)).2.2.2.2.1 (by decide),
    (decodeSensors_short_input.1 [0x2E, 0xFF, 0x07, 0x10, 0x27, 0x08, 0x09, 0x63, 0xFF]
      (by decide)).2.2.2.2.2.1 (by decide),
    (decodeSensors_short_input.1 [0x2E, 0xFF, 0x07, 0x10, 0x27, 0x08, 0x09]
      (by decide)).2.2.2.2.2.2.1 (by decide),
    (decodeSensors_short_input.1 [0x2E, 0xFF, 0x07, 0x10, 0x27, 0x08, 0x09, 0x63, 0xFF]
      (by decide)).2.2.2.2.2.2.2⟩

/-- C18: `decodeSensors` reads only the first 10 bytes. For an input `d` of more
than 10 bytes it returns what it returns on the first 10 bytes of `d`, and within
these the bytes at offsets 2, 5 and 6 do not influence the result. -/
theorem decodeSensors_first_ten_bytes :
    (∀ d : List Byte, 10 < d.length → decodeSensors d = decodeSensors (d.take 10)) ∧
    (∀ b0 b1 b2 b3 b4 b5 b6 b7 b8 b9 x y z : Byte,
      decodeSensors [b0, b1, x, b3, b4, y, z, b7, b8, b9]
        = decodeSensors [b0, b1, b2, b3, b4, b5, b6, b7, b8, b9]) := by
  refine ⟨?_, ?_⟩
  · intro d h
    match d, h with
    | b0 :: b1 :: b2 :: b3 :: b4 :: b5 :: b6 :: b7 :: b8 :: b9 :: rest, _ =>
      have ht : List.take 10 (b0 :: b1 :: b2 :: b3 :: b4 :: b5 :: b6 :: b7 :: b8 :: b9 :: rest)
          = [b0, b1, b2, b3, b4, b5, b6, b7, b8, b9] := by
        simp
      rw [ht, decodeSensors_ten_append, decodeSensors_ten]
  · intro b0 b1 b2 b3 b4 b5 b6 b7 b8 b9 x y z
    rw [decodeSensors_ten, decodeSensors_ten]

theorem decodeSensors_first_ten_bytes_witness :
    decodeSensors
        [0xD2, 0x00, 0x00, 0x64, 0x00, 0x00, 0x00, 0x28, 0x90, 0x01, 0x02, 0x3C, 0x00, 0xFB,
          0x34, 0x9B]
      = decodeSensors (List.take 10
        [0xD2, 0x00, 0x00, 0x64, 0x00, 0x00, 0x00, 0x28, 0x90, 0x01, 0x02, 0x3C, 0x00, 0xFB,
          0x34, 0x9B]) :=
  decodeSensors_first_ten_bytes.1
    [0xD2, 0x00, 0x00, 0x64, 0x00, 0x00, 0x00, 0x28, 0x90, 0x01, 0x02, 0x3C, 0x00, 0xFB,
      0x34, 0x9B] (by decide)

/-- C19: the accesses `data[2:]` and `data[0]` of `ReadFirmware` are in range
exactly when the response has at least 2 bytes. For a response of 2 bytes or more
the call succeeds with the version `data[2:]` and `Battery = data[0]` (2 bytes
give the empty version); for a response of 0 or 1 bytes the call panics, and the
read can return such a response without error. -/
theorem ReadFirmware_index_bounds :
    (∀ d : List Byte, ((sliceFrom d 2).isSome = true ∧ (index d 0).isSome = true) ↔
      2 ≤ d.length) ∧
    (∀ (tool : Tool) (m : Miflora) (trace : Trace) (d : List Byte),
      (gattCharRead tool trace m.mac (str "0x38") m.adapter).1 = Outcome.ret d none →
      (∀ h : 2 ≤ d.length, (ReadFirmware tool m trace).1
        = Outcome.ret { Version := d.drop 2, Battery := d[0] } none) ∧
      (d.length = 2 → ∃ b, (ReadFirmware tool m trace).1
        = Outcome.ret { Version := [], Battery := b } none ∧ d.head? = some b) ∧
      (d.length < 2 → (ReadFirmware tool m trace).1 = Outcome.panic)) ∧
    ((gattCharRead (constTool (str "Characteristic value/descriptor: \n")) []
          exampleDevice.mac (str "0x38") exampleDevice.adapter).1 = Outcome.ret [] none ∧
      (ReadFirmware (constTool (str "Characteristic value/descriptor: \n"))
          exampleDevice []).1 = Outcome.panic) ∧
    ((gattCharRead (constTool (str "Characteristic value/descriptor: 5a \n")) []
          exampleDevice.mac (str "0x38") exampleDevice.adapter).1
        = Outcome.ret [0x5A] none ∧
      (ReadFirmware (constTool (str "Characteristic value/descriptor: 5a \n"))
          exampleDevice []).1 = Outcome.panic) := by
  refine ⟨?_, ?_, by decide, by decide⟩
  · intro d
    match d with
    | [] => simp [sliceFrom, index]
    | [_] => simp [sliceFrom, index]
    | _ :: _ :: _ => simp [sliceFrom, index]
  · intro tool m trace d hr
    refine ⟨?_, ?_, ?_⟩
    · intro h
      match d, h with
      | a :: b :: rest, _ =>
        rw [ReadFirmware_of_read_cons tool m trace a b rest hr]
        rfl
    · intro h
      match d, h with
      | [a, b], _ =>
        rw [ReadFirmware_of_read_cons tool m trace a b [] hr]
        exact ⟨a, rfl, rfl⟩
    · intro h
      rw [ReadFirmware_of_read tool m trace d hr]
      match d, h with
      | [], _ => rfl
      | [_], _ => rfl
      | _ :: _ :: _, h =>
        simp only [List.length_cons] at h
        omega

theorem ReadFirmware_index_bounds_witness :
    (ReadFirmware exampleTool exampleDevice []).1
        = Outcome.ret
            { Version := List.drop 2 [0x5A, 0x00, 0x33, 0x2E, 0x31, 0x2E, 0x38],
              Battery := 0x5A } none ∧
      (∃ b, (ReadFirmware (constTool (str "Characteristic value/descriptor: 64 10 \n"))
            exampleDevice []).1 = Outcome.ret { Version := [], Battery := b } none ∧
          List.head? [(0x64 : Byte), 0x10] = some b) ∧
      (ReadFirmware (constTool (str "Characteristic value/descriptor: 5a \n"))
        exampleDevice []).1 = Outcome.panic :=
  ⟨(ReadFirmware_index_bounds.2.1 exampleTool exampleDevice []
      [0x5A, 0x00, 0x33, 0x2E, 0x31, 0x2E, 0x38] (by decide)).1 (by decide),
    (ReadFirmware_index_bounds.2.1
      (constTool (str "Characteristic value/descriptor: 64 10 \n")) exampleDevice []
      [0x64, 0x10] (by decide)).2.1 rfl,
    (ReadFirmware_index_bounds.2.1
      (constTool (str "Characteristic value/descriptor: 5a \n")) exampleDevice []
      [0x5A] (by decide)).2.2 (by decide)⟩

end MifloraPkg
